import Mathlib

/-!
Verification of the message/channel/DM addressing and retrieval core of the
Chappy chat server, shallowly embedded in Lean.

The backing store (DynamoDB) is modelled as a list of rows; a row is an open
map from attribute names to values of heterogeneous type, modelled as an
association list.  Query, scan (with projection), plain put and conditional
put are modelled with their DynamoDB semantics: a query on a partition
returns its rows in ascending sort-key order, a plain put replaces the row
with the same (PK, SK) pair, and a conditional put with
`attribute_not_exists(PK) AND attribute_not_exists(SK)` fails exactly when a
row with the same (PK, SK) pair already exists.

JavaScript string operations are embedded character-wise (`slice`, `split`,
`startsWith`, `includes`, `toLowerCase`, `trim`); this coincides with the
UTF-16 semantics on the Basic Multilingual Plane, which covers every string
the server constructs.  `String.prototype.localeCompare` (used by the
sorting code) is modelled by `localeCompareEn` below, reflecting Node's
default ICU collation on ASCII strings: characters are compared primarily
case-insensitively, and a case difference (lowercase first) breaks primary
ties.  `Array.prototype.sort` is a stable sort (ES2019) and is modelled by
`List.insertionSort`, which is stable.
-/

namespace Chappy

/-- A DynamoDB attribute value as the server code distinguishes them:
strings, booleans, arrays of strings, or anything else (numbers, maps, ...)
which every accessor in the code treats as absent/empty. -/
inductive AttrVal where
  | str (s : String)
  | boolean (b : Bool)
  | strList (l : List String)
  | otherVal
deriving DecidableEq, Repr

/-- A raw stored row / JSON object: an open map from attribute names to
values, as an association list (first binding wins, mirroring unique keys
of a JS object). -/
abbrev Row := List (String × AttrVal)

/-- Look an attribute up in a raw row. -/
def lookupAttr (obj : Row) (key : String) : Option AttrVal :=
  (obj.find? (fun kv => kv.1 == key)).map (fun kv => kv.2)

/-- `readStr` of `channels.ts` / `dms.ts` / the messages router:
`typeof v === "string" ? v : ""`. -/
def readStr (obj : Row) (key : String) : String :=
  match lookupAttr obj key with
  | some (.str s) => s
  | _ => ""

/-- JS `a || b` on strings: the empty string is falsy. -/
def orStr (a b : String) : String := if a == "" then b else a

/-- JS `s.trim()`: strip whitespace from both ends (character-level,
structurally recursive so that concrete instances evaluate). -/
def jsTrim (s : String) : String :=
  String.mk (((s.data.dropWhile Char.isWhitespace).reverse.dropWhile
    Char.isWhitespace).reverse)

/-- JS `s.trim().length > 0` (`isNonEmpty` of the messages router). -/
def isNonEmpty (s : String) : Bool := !(jsTrim s == "")

/-- JS `s.toLowerCase()`, character-wise (ASCII-faithful). -/
def jsToLower (s : String) : String := String.mk (s.data.map Char.toLower)

/-- Split accumulator for `jsSplitChar`. -/
def splitCharAux (c : Char) : List Char → List Char → List (List Char)
  | [], acc => [acc.reverse]
  | x :: xs, acc =>
    if x == c then acc.reverse :: splitCharAux c xs []
    else splitCharAux c xs (x :: acc)

/-- JS `s.split(sep)` for a single-character separator (the code only
splits on `"#"` and `"T"`). -/
def jsSplitChar (s : String) (c : Char) : List String :=
  (splitCharAux c s.data []).map String.mk

/-- JS `s.startsWith(p)`, character-wise. -/
def jsStartsWith (s p : String) : Bool := p.data.isPrefixOf s.data

/-- JS `s.slice(n)` for a non-negative start index, character-wise. -/
def jsSlice (s : String) (n : Nat) : String := String.mk (s.data.drop n)

/-- JS `s.slice(0, n)`, character-wise. -/
def jsTake (s : String) (n : Nat) : String := String.mk (s.data.take n)

/-- JS `s.includes(c)` for a single-character needle. -/
def jsIncludesChar (s : String) (c : Char) : Bool := s.data.contains c

/-- DynamoDB scan `ProjectionExpression`: keep only the projected
attributes of a row. -/
def projectRow (keys : List String) (obj : Row) : Row :=
  obj.filter (fun kv => keys.contains kv.1)

/-- The physical partition-key attribute of a stored row (the table is
keyed by the uppercase `PK`/`SK` attribute pair). -/
def itemPK (r : Row) : String := readStr r "PK"

/-- The physical sort-key attribute of a stored row. -/
def itemSK (r : Row) : String := readStr r "SK"

/-- Lexicographic order on primary-weight / case-weight lists, the spine of
the collation model. -/
def natListLt : List Nat → List Nat → Bool
  | [], [] => false
  | [], _ :: _ => true
  | _ :: _, [] => false
  | a :: as, b :: bs =>
    if a < b then true else if b < a then false else natListLt as bs

theorem natListLt_cons_iff (a b : Nat) (as bs : List Nat) :
    natListLt (a :: as) (b :: bs) = true ↔
      (a < b ∨ (a = b ∧ natListLt as bs = true)) := by
  rw [natListLt]
  split_ifs with h1 h2
  · simp [h1]
  · constructor
    · intro h
      exact absurd h (by simp)
    · intro h
      rcases h with h | ⟨h, _⟩ <;> omega
  · have hab : a = b := by omega
    subst hab
    simp

theorem natListLt_cons_false_iff (a b : Nat) (as bs : List Nat) :
    natListLt (a :: as) (b :: bs) = false ↔
      (b < a ∨ (a = b ∧ natListLt as bs = false)) := by
  rw [natListLt]
  split_ifs with h1 h2
  · constructor
    · intro h
      exact absurd h (by simp)
    · intro h
      rcases h with h | ⟨h, _⟩ <;> omega
  · simp [h2]
  · have hab : a = b := by omega
    subst hab
    simp

theorem natListLt_trans : ∀ {p q r : List Nat},
    natListLt p q = true → natListLt q r = true → natListLt p r = true := by
  intro p
  induction p with
  | nil =>
    intro q r h1 h2
    cases q with
    | nil => exact absurd h1 (by simp [natListLt])
    | cons b bs =>
      cases r with
      | nil => exact absurd h2 (by simp [natListLt])
      | cons c cs => simp [natListLt]
  | cons a as ih =>
    intro q r h1 h2
    cases q with
    | nil => exact absurd h1 (by simp [natListLt])
    | cons b bs =>
      cases r with
      | nil => exact absurd h2 (by simp [natListLt])
      | cons c cs =>
        rw [natListLt_cons_iff] at h1 h2 ⊢
        rcases h1 with h1 | ⟨h1, h1'⟩
        · rcases h2 with h2 | ⟨h2, _⟩
          · exact Or.inl (Nat.lt_trans h1 h2)
          · exact Or.inl (h2 ▸ h1)
        · rcases h2 with h2 | ⟨h2, h2'⟩
          · exact Or.inl (h1 ▸ h2)
          · exact Or.inr ⟨h1.trans h2, ih h1' h2'⟩

theorem natListLt_conn : ∀ {p q : List Nat},
    natListLt p q = false → natListLt q p = false → p = q := by
  intro p
  induction p with
  | nil =>
    intro q h1 _
    cases q with
    | nil => rfl
    | cons b bs => exact absurd h1 (by simp [natListLt])
  | cons a as ih =>
    intro q h1 h2
    cases q with
    | nil => exact absurd h2 (by simp [natListLt])
    | cons b bs =>
      rw [natListLt_cons_false_iff] at h1 h2
      rcases h1 with h1 | ⟨h1, h1'⟩
      · rcases h2 with h2 | ⟨h2, _⟩ <;> omega
      · rcases h2 with h2 | ⟨h2, h2'⟩
        · omega
        · rw [h1, ih h1' h2']

/-- The primary collation weight of a character: letters collate
case-insensitively at primary strength, so the weight is the lowercase
code point. -/
def primaryWeight (c : Char) : Nat := c.toLower.toNat

/-- The case (tertiary) collation weight: lowercase sorts before
uppercase under the default ICU collation. -/
def caseWeight (c : Char) : Nat := if c.isUpper then 1 else 0

/-- The primary key of a string under the collation model. -/
def collP (s : String) : List Nat := s.data.map primaryWeight

/-- The case key of a string under the collation model. -/
def collC (s : String) : List Nat := s.data.map caseWeight

/-- Model of JS `a.localeCompare(b)` under Node's default ICU collation,
restricted to the ASCII strings this server compares: the primary weights
are compared lexicographically first; on a primary tie the case weights
break the tie (lowercase first); `-1`, `0`, `1` are returned like ICU's
collator.  On strings of identical template (e.g. two ISO-8601
timestamps produced by `toISOString`) this agrees with code-unit order. -/
def localeCompareEn (s t : String) : Int :=
  if natListLt (collP s) (collP t) then -1
  else if natListLt (collP t) (collP s) then 1
  else if natListLt (collC s) (collC t) then -1
  else if natListLt (collC t) (collC s) then 1
  else 0

theorem natListLt_irrefl : ∀ l : List Nat, natListLt l l = false := by
  intro l
  induction l with
  | nil => rfl
  | cons a as ih => simp [natListLt, ih]

/-- `localeCompare(a, b) <= 0` — the way the sort comparators use the
result — unfolded into order facts on the collation keys. -/
theorem localeCompareEn_le_iff (s t : String) :
    localeCompareEn s t ≤ 0 ↔
      (natListLt (collP s) (collP t) = true ∨
        (collP s = collP t ∧
          (natListLt (collC s) (collC t) = true ∨ collC s = collC t))) := by
  unfold localeCompareEn
  by_cases p1 : natListLt (collP s) (collP t) = true
  · simp [p1]
  · by_cases p2 : natListLt (collP t) (collP s) = true
    · have hne : ¬ collP s = collP t := by
        intro h
        rw [h, natListLt_irrefl] at p2
        exact Bool.false_ne_true p2
      simp [p1, p2, hne]
    · have heq : collP s = collP t :=
        natListLt_conn (Bool.not_eq_true _ ▸ p1) (Bool.not_eq_true _ ▸ p2)
      by_cases c1 : natListLt (collC s) (collC t) = true
      · simp [p1, p2, c1, heq, natListLt_irrefl]
      · by_cases c2 : natListLt (collC t) (collC s) = true
        · have hcne : ¬ collC s = collC t := by
            intro h
            rw [h, natListLt_irrefl] at c2
            exact Bool.false_ne_true c2
          simp [p1, p2, c1, c2, heq, hcne, natListLt_irrefl]
        · have hceq : collC s = collC t :=
            natListLt_conn (Bool.not_eq_true _ ▸ c1) (Bool.not_eq_true _ ▸ c2)
          simp [p1, p2, c1, c2, heq, hceq, natListLt_irrefl]

theorem localeCompareEn_le_total (s t : String) :
    localeCompareEn s t ≤ 0 ∨ localeCompareEn t s ≤ 0 := by
  rw [localeCompareEn_le_iff, localeCompareEn_le_iff]
  by_cases p1 : natListLt (collP s) (collP t) = true
  · exact Or.inl (Or.inl p1)
  · by_cases p2 : natListLt (collP t) (collP s) = true
    · exact Or.inr (Or.inl p2)
    · have heq : collP s = collP t :=
        natListLt_conn (Bool.not_eq_true _ ▸ p1) (Bool.not_eq_true _ ▸ p2)
      by_cases c1 : natListLt (collC s) (collC t) = true
      · exact Or.inl (Or.inr ⟨heq, Or.inl c1⟩)
      · by_cases c2 : natListLt (collC t) (collC s) = true
        · exact Or.inr (Or.inr ⟨heq.symm, Or.inl c2⟩)
        · exact Or.inl (Or.inr ⟨heq,
            Or.inr (natListLt_conn (Bool.not_eq_true _ ▸ c1) (Bool.not_eq_true _ ▸ c2))⟩)

theorem localeCompareEn_le_trans {s t u : String}
    (h1 : localeCompareEn s t ≤ 0) (h2 : localeCompareEn t u ≤ 0) :
    localeCompareEn s u ≤ 0 := by
  rw [localeCompareEn_le_iff] at h1 h2 ⊢
  rcases h1 with hp1 | ⟨he1, hc1⟩
  · rcases h2 with hp2 | ⟨he2, _⟩
    · exact Or.inl (natListLt_trans hp1 hp2)
    · exact Or.inl (he2 ▸ hp1)
  · rcases h2 with hp2 | ⟨he2, hc2⟩
    · exact Or.inl (he1 ▸ hp2)
    · refine Or.inr ⟨he1.trans he2, ?_⟩
      rcases hc1 with hcl1 | hce1
      · rcases hc2 with hcl2 | hce2
        · exact Or.inl (natListLt_trans hcl1 hcl2)
        · exact Or.inl (hce2 ▸ hcl1)
      · rcases hc2 with hcl2 | hce2
        · exact Or.inl (hce1 ▸ hcl2)
        · exact Or.inr (hce1.trans hce2)

theorem natListLt_asymm {p q : List Nat} (h : natListLt p q = true) :
    natListLt q p = false := by
  cases hqp : natListLt q p with
  | false => rfl
  | true =>
    have := natListLt_trans h hqp
    rw [natListLt_irrefl] at this
    exact absurd this (by simp)

theorem natListLt_not_not_trans {p q r : List Nat}
    (h1 : natListLt q p = false) (h2 : natListLt r q = false) :
    natListLt r p = false := by
  cases hrp : natListLt r p with
  | false => rfl
  | true =>
    by_cases hqr : natListLt q r = true
    · have := natListLt_trans hqr hrp
      rw [this] at h1
      exact absurd h1 (by simp)
    · have heq : q = r := natListLt_conn (Bool.not_eq_true _ ▸ hqr) h2
      rw [heq, hrp] at h1
      exact absurd h1 (by simp)

/-- The code-point sequence of a string; for UTF-8/UTF-16 strings in the
Basic Multilingual Plane, code-point order is both DynamoDB's byte-wise
sort-key order and JS code-unit string comparison. -/
def codeUnits (s : String) : List Nat := s.data.map Char.toNat

/-- Strict code-unit order on strings (JS `<` on strings, the default
`Array.prototype.sort` comparison, DynamoDB sort-key order). -/
def strLtB (s t : String) : Bool := natListLt (codeUnits s) (codeUnits t)

/-- Non-strict code-unit order on strings. -/
def strLeB (s t : String) : Bool := !(strLtB t s)

theorem strLeB_total (s t : String) : strLeB s t = true ∨ strLeB t s = true := by
  by_cases h : strLtB t s = true
  · right
    have := natListLt_asymm h
    simp [strLeB, strLtB, this]
  · left
    simp [strLeB]
    exact Bool.not_eq_true _ ▸ h

theorem strLeB_trans {s t u : String}
    (h1 : strLeB s t = true) (h2 : strLeB t u = true) : strLeB s u = true := by
  simp only [strLeB, strLtB, Bool.not_eq_true'] at h1 h2 ⊢
  exact natListLt_not_not_trans h1 h2

/-- The relation the message-sort comparator
`(a, b) => a.createdAt.localeCompare(b.createdAt)` induces on a stable
sort: `a` may stay before `b` iff the comparator is non-positive. -/
def locLe (s t : String) : Prop := localeCompareEn s t ≤ 0

instance : DecidableRel locLe := fun s t => by
  unfold locLe
  infer_instance

namespace Messages

/-!  Embedding of the messages router (`fetchMessages`, `mapItemToMessage`,
`createMessage`, the limit clamp and the public route). -/

/-- `kind` of a chat message. -/
inductive MsgKind where
  | channel
  | dm
deriving DecidableEq, Repr

/-- The `ChatMessage` object of the messages router. -/
structure ChatMessage where
  id : String
  kind : MsgKind
  channel : Option String
  dmId : Option String
  author : String
  text : String
  createdAt : String
  sender : Option String
  time : Option String
deriving DecidableEq, Repr

/-- `readAuthor`: try `author`, `sender`, `username`, `user`, first
non-empty wins. -/
def readAuthor (obj : Row) : String :=
  orStr (readStr obj "author")
    (orStr (readStr obj "sender")
      (orStr (readStr obj "username") (readStr obj "user")))

/-- `readMessageText`: main key `text`, fallback `message`. -/
def readMessageText (obj : Row) : String :=
  orStr (readStr obj "text") (readStr obj "message")

/-- `parseFromKey` inside `mapItemToMessage`: extract the ISO timestamp
from a sort key `MSG#<iso>#<uuid>` or `TS#<iso>#<uuid>`. -/
def parseFromKey (s : String) : String :=
  let parts := jsSplitChar s '#'
  if 2 ≤ parts.length then
    let iso := parts.getD 1 ""
    if iso != "" && jsIncludesChar iso 'T' then iso else ""
  else ""

/-- The short display time both `mapItemToMessage` and `createMessage`
compute from an ISO timestamp with the same inline expression:
`createdAt.split("T")[1]?.slice(0, 5)` when `createdAt.includes("T")` and
the result is non-empty. -/
def shortTime (createdAt : String) : Option String :=
  if jsIncludesChar createdAt 'T' then
    let hhmm := jsTake ((jsSplitChar createdAt 'T').getD 1 "") 5
    if hhmm != "" then some hhmm else none
  else none

/-- `mapItemToMessage`: convert a raw stored row to a `ChatMessage`,
accepting both the current (pattern A) and the legacy (pattern B) key
conventions; rows with no recognizable kind or an empty text, author or
timestamp are dropped (`null`). -/
def mapItemToMessage (obj : Row) : Option ChatMessage :=
  let PK := orStr (readStr obj "PK") (readStr obj "pk")
  let SK := orStr (readStr obj "SK") (readStr obj "sk")
  let text := readMessageText obj
  let author := readAuthor obj
  let createdAt0 := readStr obj "createdAt"
  let id0 := readStr obj "id"
  let createdAt := if createdAt0 == "" && SK != "" then parseFromKey SK else createdAt0
  let id := if id0 == "" then SK else id0
  let kcd : Option (MsgKind × Option String × Option String) :=
    if jsStartsWith PK "CHANNEL#" then some (.channel, some (jsSlice PK 8), none)
    else if jsStartsWith PK "DM#" then some (.dm, none, some PK)
    else if jsStartsWith PK "MSG#CHANNEL#" then some (.channel, some (jsSlice PK 12), none)
    else if jsStartsWith PK "MSG#DM#" then some (.dm, none, some ("DM#" ++ jsSlice PK 7))
    else none
  match kcd with
  | none => none
  | some (kind, channel, dmId) =>
    if isNonEmpty text && isNonEmpty author && isNonEmpty createdAt then
      some { id, kind, channel, dmId, author, text, createdAt,
             sender := some author, time := shortTime createdAt }
    else none

/-- `buildPk`: the current-convention (pattern A) partition key for a new
message. -/
def buildPk (kind : MsgKind) (channel dmId : Option String) : String :=
  match kind, channel, dmId with
  | .channel, some c, _ => if c != "" then "CHANNEL#" ++ c else ""
  | .dm, _, some d => if d != "" then d else ""
  | _, _, _ => ""

/-- Sort-key order on stored rows: a DynamoDB query returns the rows of a
partition in ascending `SK` order (byte order, which for UTF-8 is code
point order). -/
def skLe (a b : Row) : Prop := strLeB (itemSK a) (itemSK b) = true

instance : DecidableRel skLe := fun a b => by
  unfold skLe
  infer_instance

instance : IsTotal Row skLe := ⟨fun a b => strLeB_total (itemSK a) (itemSK b)⟩

instance : IsTrans Row skLe := ⟨fun _ _ _ h1 h2 => strLeB_trans h1 h2⟩

/-- The pattern-A query of `fetchMessages`: partition key equal to `key`,
sort key beginning with `"MSG#"`, ascending, capped at `limit`. -/
def queryMsgA (table : List Row) (key : String) (limit : Nat) : List Row :=
  (List.insertionSort skLe
    (table.filter (fun r => itemPK r == key && jsStartsWith (itemSK r) "MSG#"))).take limit

/-- The scan in the pattern-B fallback projects these attributes
(`ProjectionExpression` of the `ScanCommand`). -/
def msgProjection : List String :=
  ["PK", "SK", "text", "author", "createdAt", "id", "pk", "sk"]

/-- Ordering of mapped messages by the legacy-path sort comparator
`(a, b) => a.createdAt.localeCompare(b.createdAt)`. -/
def createdAtLe (a b : ChatMessage) : Prop := locLe a.createdAt b.createdAt

instance : DecidableRel createdAtLe := fun a b => by
  unfold createdAtLe
  infer_instance

instance : IsTotal ChatMessage createdAtLe :=
  ⟨fun a b => localeCompareEn_le_total a.createdAt b.createdAt⟩

instance : IsTrans ChatMessage createdAtLe :=
  ⟨fun _ _ _ h1 h2 => localeCompareEn_le_trans h1 h2⟩

/-- `fetchMessages`: query the pattern-A partition first; if that yields
zero messages, scan the whole table, keep the rows whose partition key
equals the pattern-B equivalent of the requested address, sort by
`createdAt` ascending and truncate to `limit`. -/
def fetchMessages (kind : MsgKind) (key : String) (limit : Nat)
    (table : List Row) : List ChatMessage :=
  let qItems := queryMsgA table key limit
  let msgs := qItems.filterMap mapItemToMessage
  if 0 < msgs.length then msgs
  else
    let rows := table.map (projectRow msgProjection)
    let expectedPkB : String :=
      match kind with
      | .channel => "MSG#CHANNEL#" ++ jsSlice key 8
      | .dm => "MSG#" ++ key
    let filtered := rows.filter
      (fun obj => orStr (readStr obj "PK") (readStr obj "pk") == expectedPkB)
    let msgs2 := filtered.filterMap mapItemToMessage
    (List.insertionSort createdAtLe msgs2).take limit

/-- The only error the store model distinguishes, as required of the
consumed store interface: the conditional-check failure of a guarded put. -/
inductive DbError where
  | conditionalCheckFailed
deriving DecidableEq, Repr

/-- Is there a stored row with exactly this (partition, sort) key pair? -/
def hasKeyCollision (table : List Row) (pk sk : String) : Bool :=
  table.any (fun r => itemPK r == pk && itemSK r == sk)

/-- A `PutCommand` guarded by
`attribute_not_exists(#PK) AND attribute_not_exists(#SK)`: fails exactly
when a row with the same (PK, SK) pair exists, otherwise stores the item. -/
def condPut (table : List Row) (item : Row) : Except DbError (List Row) :=
  if hasKeyCollision table (itemPK item) (itemSK item) then
    .error .conditionalCheckFailed
  else
    .ok (table ++ [item])

/-- The item `createMessage` writes (pattern A).  Attributes set to
`undefined` in the source (`channel` for DMs, `dmId` for channels) are
absent from the stored item. -/
def msgItem (kind : MsgKind) (channel dmId : Option String)
    (author text now uuid : String) : Row :=
  let pk := buildPk kind channel dmId
  let sk := "MSG#" ++ now ++ "#" ++ uuid
  [("PK", .str pk), ("SK", .str sk),
   ("kind", .str (match kind with | .channel => "channel" | .dm => "dm"))]
  ++ (match kind, channel with
      | .channel, some c => [("channel", .str c)]
      | _, _ => [])
  ++ (match kind, dmId with
      | .dm, some d => [("dmId", .str d)]
      | _, _ => [])
  ++ [("author", .str author), ("text", .str text),
      ("createdAt", .str now), ("id", .str sk)]

/-- The `ChatMessage` object `createMessage` returns to the caller. -/
def savedMessage (kind : MsgKind) (channel dmId : Option String)
    (author text now uuid : String) : ChatMessage :=
  { id := "MSG#" ++ now ++ "#" ++ uuid
    kind, channel, dmId, author, text
    createdAt := now
    sender := some author
    time := shortTime now }

/-- `createMessage` of the messages router: build the pattern-A keys from
the server clock (`now = new Date().toISOString()`) and one freshly drawn
unique suffix (`uuid = randomUUID()`), then issue a single conditional
put.  A conditional-check failure propagates to the caller — the function
draws no second suffix and makes no second attempt. -/
def createMessage (kind : MsgKind) (channel dmId : Option String)
    (author text : String) (now uuid : String) (table : List Row) :
    Except DbError (ChatMessage × List Row) :=
  match condPut table (msgItem kind channel dmId author text now uuid) with
  | .error e => .error e
  | .ok table2 => .ok (savedMessage kind channel dmId author text now uuid, table2)

/-- `Number(req.query.limit)` as the route sees it: either a number or
`NaN` (missing or non-numeric query parameter); fractional values do not
arise for the integral inputs this model covers. -/
inductive JsNumber where
  | nan
  | int (q : Int)
deriving DecidableEq, Repr

/-- The limit clamp of the GET route:
`Math.max(1, Math.min(200, Number(req.query.limit) || 50))`.
`x || 50` evaluates to `50` exactly when `x` is falsy, i.e. `NaN` or `0`. -/
def clampLimit (n : JsNumber) : Int :=
  let v : Int :=
    match n with
    | .nan => 50
    | .int q => if q = 0 then 50 else q
  max 1 (min 200 v)

/-- `readFromBody`: a string field of the request body, else `""`. -/
def readFromBody (body : Row) (key : String) : String := readStr body key

/-- The POST `/public` route of the messages router: guests may post only
channel messages to `#general`; the author is the fixed name `"Guest"`.
Returns the HTTP status, the saved message (if any) and the resulting
table; a store failure is caught and reported as 500 with the table
unchanged. -/
def postPublic (body : Row) (now uuid : String) (table : List Row) :
    Nat × Option ChatMessage × List Row :=
  let kind := jsToLower (readFromBody body "kind")
  let text := readFromBody body "text"
  let channel := readFromBody body "channel"
  if !(kind == "channel") || !(channel == "general") then (400, none, table)
  else if !(isNonEmpty text) then (400, none, table)
  else
    match createMessage .channel (some channel) none "Guest" text now uuid table with
    | .ok (saved, table2) => (201, some saved, table2)
    | .error _ => (500, none, table)

end Messages

namespace MessagesAlt

/-!  Embedding of the alternate messages router kept in the repository
(the variant whose `createMessage` issues an unguarded put and whose
public route checks the channel name case-insensitively). -/

/-- The `ChatMessage` shape of the alternate router. -/
structure ChatMessage where
  id : String
  author : String
  text : String
  createdAt : String
  channel : Option String
  dmId : Option String
deriving DecidableEq, Repr

/-- `safeString` on a body/row field: `typeof v === "string" ? v : ""`. -/
def safeStringField (obj : Row) (key : String) : String := readStr obj key

/-- An unguarded DynamoDB `PutCommand`: replaces any row with the same
(PK, SK) pair. -/
def putReplace (table : List Row) (item : Row) : List Row :=
  table.filter (fun r => !(itemPK r == itemPK item && itemSK r == itemSK item)) ++ [item]

/-- The channel branch of the alternate `createMessage`: saves under
`PK = "CHANNEL#<name>"` with no condition expression, so a colliding
(PK, SK) pair is silently replaced. -/
def createMessageChannel (author channel text : String) (now uuid : String)
    (table : List Row) : ChatMessage × List Row :=
  let sk := "MSG#" ++ now ++ "#" ++ uuid
  let item : Row :=
    [("PK", .str ("CHANNEL#" ++ channel)), ("SK", .str sk), ("id", .str sk),
     ("kind", .str "channel"), ("channel", .str channel),
     ("author", .str author), ("text", .str text), ("createdAt", .str now)]
  ({ id := sk, author, text, createdAt := now, channel := some channel, dmId := none },
   putReplace table item)

/-- The alternate POST `/public` route: requires non-empty trimmed
`channel` and `text`, compares the channel name case-insensitively with
`"general"` (403 otherwise), never reads `kind`, and posts as `"Guest"`
with the channel name as given in the request. -/
def postPublic (body : Row) (now uuid : String) (table : List Row) :
    Nat × Option ChatMessage × List Row :=
  let channelName := jsTrim (safeStringField body "channel")
  let text := jsTrim (safeStringField body "text")
  if channelName == "" || text == "" then (400, none, table)
  else if !(jsToLower channelName == "general") then (403, none, table)
  else
    let (message, table2) := createMessageChannel "Guest" channelName text now uuid table
    (201, some message, table2)

end MessagesAlt

/-- `getStrFromKeys` of `channels.ts` / `dms.ts`: the value of the first
listed key holding a string (even an empty one), else `""`. -/
def getStrFromKeys (obj : Row) (keys : List String) : String :=
  match keys.findSome? (fun k =>
    match lookupAttr obj k with
    | some (.str s) => some s
    | _ => none) with
  | some s => s
  | none => ""

namespace Channels

/-!  Embedding of `scanChannelMetas` of `channels.ts`. -/

/-- The `ChannelMeta` record sent to the frontend. -/
structure ChannelMeta where
  name : String
  isLocked : Bool
deriving DecidableEq, Repr

/-- `readBool`: a boolean field or the fallback. -/
def readBool (obj : Row) (key : String) (fallback : Bool) : Bool :=
  match lookupAttr obj key with
  | some (.boolean b) => b
  | _ => fallback

/-- The scan projection of `scanChannelMetas`. -/
def chanProjection : List String := ["PK", "SK", "name", "isLocked", "pk", "sk"]

/-- Step 2 of `scanChannelMetas`: is this row a channel row (type A:
`PK="CHANNEL"`, `SK="CHANNEL#<name>"`; or type B: `PK="CHANNEL#<name>"`,
`SK="META#INFO"`)? -/
def isChannelRow (obj : Row) : Bool :=
  let PKv := getStrFromKeys obj ["PK", "pk"]
  let SKv := getStrFromKeys obj ["SK", "sk"]
  (PKv == "CHANNEL" && jsStartsWith SKv "CHANNEL#") ||
    (jsStartsWith PKv "CHANNEL#" && SKv == "META#INFO")

/-- Step 3 of `scanChannelMetas`: raw `{name, isLocked}` of one channel
row, the name read from the `name` field or derived from `PK`/`SK`. -/
def toRawMeta (obj : Row) : ChannelMeta :=
  let PKv := getStrFromKeys obj ["PK", "pk"]
  let SKv := getStrFromKeys obj ["SK", "sk"]
  let name0 := readStr obj "name"
  let name :=
    if name0 == "" then
      if jsStartsWith PKv "CHANNEL#" then jsSlice PKv 8
      else if jsStartsWith SKv "CHANNEL#" then jsSlice SKv 8
      else ""
    else name0
  { name, isLocked := readBool obj "isLocked" false }

/-- One `byName.set` step of the dedup `Map`: merge `isLocked` by OR into
the existing entry of that exact name, else append (JS `Map` preserves
insertion order and `set` on an existing key keeps its position). -/
def upsertMeta (acc : List ChannelMeta) (item : ChannelMeta) : List ChannelMeta :=
  if acc.any (fun e => e.name == item.name) then
    acc.map (fun e =>
      if e.name == item.name then { name := e.name, isLocked := e.isLocked || item.isLocked }
      else e)
  else acc ++ [item]

/-- Step 4 of `scanChannelMetas`: deduplicate by exact name with OR-merge
of `isLocked`, skipping nameless entries. -/
def dedupByName (l : List ChannelMeta) : List ChannelMeta :=
  l.foldl (fun acc item => if item.name == "" then acc else upsertMeta acc item) []

/-- Order induced by the final `items.sort((a, b) =>
a.name.localeCompare(b.name))`. -/
def metaNameLe (a b : ChannelMeta) : Prop := locLe a.name b.name

instance : DecidableRel metaNameLe := fun a b => by
  unfold metaNameLe
  infer_instance

instance : IsTotal ChannelMeta metaNameLe :=
  ⟨fun a b => localeCompareEn_le_total a.name b.name⟩

instance : IsTrans ChannelMeta metaNameLe :=
  ⟨fun _ _ _ h1 h2 => localeCompareEn_le_trans h1 h2⟩

/-- The raw (pre-dedup) channel metas a scan produces. -/
def channelRawItems (table : List Row) : List ChannelMeta :=
  ((table.map (projectRow chanProjection)).filter isChannelRow).map toRawMeta

/-- `scanChannelMetas`: scan, keep channel rows, extract `{name,
isLocked}`, dedup by name with OR-merge, drop locked entries unless
`showLocked`, sort by name with `localeCompare`. -/
def scanChannelMetas (showLocked : Bool) (table : List Row) : List ChannelMeta :=
  let deduped := dedupByName (channelRawItems table)
  let items := if showLocked then deduped else deduped.filter (fun ch => !ch.isLocked)
  List.insertionSort metaNameLe items

end Channels

namespace Dms

/-!  Embedding of `scanAllDmMetas`, `mapToClient`, `fallbackStaticDms` and
the GET `/api/dms` route of `dms.ts`. -/

/-- One DM thread record. -/
structure DMThread where
  id : String
  members : List String
  lastMessageAt : Option String
deriving DecidableEq, Repr

/-- The record sent to the frontend. -/
structure DMForClient where
  dmId : String
  username : String
  lastMessageAt : Option String
deriving DecidableEq, Repr

/-- `readStrArray`: a string-array field, else `[]` (the JS code also
drops non-string elements, which the `strList` constructor already
guarantees). -/
def readStrArray (obj : Row) (key : String) : List String :=
  match lookupAttr obj key with
  | some (.strList l) => l
  | _ => []

/-- `getDmIdFromKeys`: the DM id from `PK`, `SK` or the `id` field. -/
def getDmIdFromKeys (obj : Row) (PKv SKv : String) : String :=
  if jsStartsWith PKv "DM#" then PKv
  else if jsStartsWith SKv "DM#" then SKv
  else if jsStartsWith (readStr obj "id") "DM#" then readStr obj "id"
  else ""

/-- `getMembers`: the `members` array, else the parts of the DM id, else
the legacy `userA`/`userB` fields — in that fallback order. -/
def getMembers (obj : Row) (dmId : String) : List String :=
  let arr := readStrArray obj "members"
  if 2 ≤ arr.length then arr
  else if jsStartsWith dmId "DM#" then
    ((jsSplitChar dmId '#').drop 1).filter (fun s => s != "")
  else
    let a := readStr obj "userA"
    let b := readStr obj "userB"
    (if a != "" then [a] else []) ++ (if b != "" then [b] else [])

/-- The scan projection of `scanAllDmMetas`. -/
def dmProjection : List String :=
  ["PK", "SK", "id", "members", "userA", "userB", "lastMessageAt", "pk", "sk"]

/-- Is this row a DM meta row (type A: `PK="DM"`, `SK="DM#..."`; type B:
`PK="DM#..."`, `SK="META#INFO"`)? -/
def isDmRow (obj : Row) : Bool :=
  let PKv := getStrFromKeys obj ["PK", "pk"]
  let SKv := getStrFromKeys obj ["SK", "sk"]
  (PKv == "DM" && jsStartsWith SKv "DM#") ||
    (jsStartsWith PKv "DM#" && SKv == "META#INFO")

/-- Convert one DM row to a `DMThread`. -/
def toDmThread (obj : Row) : DMThread :=
  let PKv := getStrFromKeys obj ["PK", "pk"]
  let SKv := getStrFromKeys obj ["SK", "sk"]
  let id := getDmIdFromKeys obj PKv SKv
  let members := getMembers obj id
  let last := readStr obj "lastMessageAt"
  { id, members, lastMessageAt := if last == "" then none else some last }

/-- The DM sort comparator: newest `lastMessageAt` first when both have
one, else ascending by id. -/
def dmCmp (a b : DMThread) : Int :=
  match a.lastMessageAt, b.lastMessageAt with
  | some la, some lb => localeCompareEn lb la
  | _, _ => localeCompareEn a.id b.id

/-- The relation the DM comparator induces on a stable sort. -/
def dmLe (a b : DMThread) : Prop := dmCmp a b ≤ 0

instance : DecidableRel dmLe := fun a b => by
  unfold dmLe
  infer_instance

/-- `scanAllDmMetas`: scan, keep DM meta rows, convert, sort. -/
def scanAllDmMetas (table : List Row) : List DMThread :=
  let dmRows := (table.map (projectRow dmProjection)).filter isDmRow
  List.insertionSort dmLe (dmRows.map toDmThread)

/-- `mapToClient` for one thread: the other member's name (first member
≠ `me`, else the first member, else `me`). -/
def mapToClientOne (me : String) (t : DMThread) : DMForClient :=
  let otherUser := (t.members.find? (fun m => m != me)).getD
    (orStr (t.members.getD 0 "") me)
  { dmId := t.id, username := otherUser, lastMessageAt := t.lastMessageAt }

/-- `mapToClient`. -/
def mapToClient (all : List DMThread) (me : String) : List DMForClient :=
  all.map (mapToClientOne me)

/-- `fallbackStaticDms`: the hard-coded candidate list served whenever the
scan-derived DM list for the user comes out empty. -/
def fallbackStaticDms (me : String) : List DMForClient :=
  let allNames := ["Jack-skellington", "totoro", "guz", "naruto", "admin"]
  let names := if me != "" then allNames.filter (fun name => name != me) else allNames
  names.map (fun name => { dmId := "DM#me#" ++ name, username := name, lastMessageAt := none })

/-- The GET `/api/dms` route body (after the auth check): scan, keep the
threads containing `me`, map for the client, and replace an empty result
with the static fallback list. -/
def listDmsForUser (me : String) (table : List Row) : List DMForClient :=
  let all := scanAllDmMetas table
  let mine := all.filter (fun t => t.members.contains me)
  let dmsForClient := mapToClient mine me
  if dmsForClient.length == 0 then fallbackStaticDms me else dmsForClient

end Dms

namespace UsersRoutes

/-- `buildDmId` of the user-directory DM route: lowercase both names,
sort the pair (JS default sort = code-unit order), join with `"DM#"`. -/
def buildDmId (a b : String) : String :=
  let p1 := jsToLower a
  let p2 := jsToLower b
  let sorted := if strLtB p2 p1 then [p2, p1] else [p1, p2]
  "DM#" ++ sorted.getD 0 "" ++ "#" ++ sorted.getD 1 ""

end UsersRoutes

namespace DynamoUser

/-!  Embedding of `getUserIdFromKeys` and `listAllUsers` of
`data/dynamoUser.ts`. -/

/-- The clean user record `listAllUsers` returns. -/
structure UserItem where
  userId : String
  username : String
  accessLevel : String
  pk : String
  sk : String
deriving DecidableEq, Repr

/-- `getUserIdFromKeys`: derive a simple user id from the `PK`/`SK` pair
alone.  Old style `PK="USER#<n>", SK="PROFILE#<n>"` gives the PK suffix;
new style `PK="USER", SK="USER#<uuid>"` gives the SK suffix; otherwise an
SK `USER#` suffix is preferred over a PK `USER#` suffix; otherwise `SK`,
then `PK`, verbatim. -/
def getUserIdFromKeys (pk sk : String) : Option String :=
  if pk == "" || sk == "" then none
  else if jsStartsWith pk "USER#" && jsStartsWith sk "PROFILE#" then some (jsSlice pk 5)
  else if pk == "USER" && jsStartsWith sk "USER#" then some (jsSlice sk 5)
  else if jsStartsWith sk "USER#" then some (jsSlice sk 5)
  else if jsStartsWith pk "USER#" then some (jsSlice pk 5)
  else if sk != "" then some sk
  else if pk != "" then some pk
  else none

/-- `getString(v)`: `typeof v === "string" ? v : ""`. -/
def getString (v : AttrVal) : String :=
  match v with
  | .str s => s
  | _ => ""

/-- The scan projection of `listAllUsers` (note: the `name` and `userId`
attributes are not projected). -/
def userProjection : List String := ["PK", "SK", "username", "accessLevel"]

/-- `listAllUsers`: scan, keep rows whose `PK` is `"USER"` or starts with
`"USER#"`, require a non-empty username (`it.username ?? it.name`), and
derive `userId` from the keys alone via `getUserIdFromKeys`. -/
def listAllUsers (table : List Row) : List UserItem :=
  (table.map (projectRow userProjection)).filterMap (fun it =>
    let pk := match lookupAttr it "PK" with | some v => getString v | none => ""
    let sk := match lookupAttr it "SK" with | some v => getString v | none => ""
    if pk == "USER" || jsStartsWith pk "USER#" then
      let username :=
        match lookupAttr it "username" with
        | some v => getString v
        | none => match lookupAttr it "name" with | some v => getString v | none => ""
      if username != "" then
        match getUserIdFromKeys pk sk with
        | some userId =>
          let accessLevel :=
            match lookupAttr it "accessLevel" with
            | some v => getString v
            | none => "user"
          some { userId, username, accessLevel, pk, sk }
        | none => none
      else none
    else none)

end DynamoUser

namespace Login

/-!  Embedding of the userId resolution of the login route. -/

/-- `getStr` of the login route: `typeof v === "string" ? v : undefined`. -/
def getStr (obj : Row) (key : String) : Option String :=
  match lookupAttr obj key with
  | some (.str s) => some s
  | _ => none

/-- The userId resolution of the login route:
`getStr(raw,"userId") ?? (PK "USER#" suffix) ?? (SK "USER#" suffix) ??
nameFromItem`, then `if (!userId) userId = username` (the login-form
username) — so an empty-string winner also falls back to the login name. -/
def resolveUserId (raw : Row) (username : String) : String :=
  let nameFromItem : Option String := (getStr raw "username").orElse (fun _ => getStr raw "name")
  let pkUpper := getStr raw "PK"
  let skUpper := getStr raw "SK"
  let fromPk : Option String :=
    match pkUpper with
    | some pk => if pk != "" && jsStartsWith pk "USER#" then some (jsSlice pk 5) else none
    | none => none
  let fromSk : Option String :=
    match skUpper with
    | some sk => if sk != "" && jsStartsWith sk "USER#" then some (jsSlice sk 5) else none
    | none => none
  let userId : Option String :=
    ((getStr raw "userId").orElse (fun _ => fromPk)).orElse
      (fun _ => fromSk.orElse (fun _ => nameFromItem))
  match userId with
  | some s => if s == "" then username else s
  | none => username

end Login

/-- The channel-roster order the specification asserts: case-sensitive
ascending lexicographic (code-unit) comparison.  Stated from the
specification's words, for comparison with the code's
`localeCompare`-based sort. -/
def caseSensitiveLt (s t : String) : Bool := strLtB s t

/-- The lock flag of the first entry with this exact name, if any. -/
def lockOf (l : List Channels.ChannelMeta) (n : String) : Option Bool :=
  (l.find? (fun e => e.name == n)).map (fun e => e.isLocked)

/-- Is some raw item of this exact name present? -/
def containsName (n : String) (l : List Channels.ChannelMeta) : Bool :=
  l.any (fun i => i.name == n)

/-- Is some raw item of this exact name locked? -/
def anyLockedFor (n : String) (l : List Channels.ChannelMeta) : Bool :=
  l.any (fun i => i.name == n && i.isLocked)

/-- The dedup loop of `scanChannelMetas`, named for the induction. -/
def dedupStep (acc : List Channels.ChannelMeta) (item : Channels.ChannelMeta) :
    List Channels.ChannelMeta :=
  if item.name == "" then acc else Channels.upsertMeta acc item

/-!  ## General lemmas about the embedded string/row operations -/

theorem append_ne_empty_left (p s : String) (hp : p ≠ "") : p ++ s ≠ "" := by
  intro h
  have hd := congrArg String.data h
  rw [String.data_append] at hd
  rcases List.append_eq_nil.mp hd with ⟨h1, _⟩
  exact hp (congrArg String.mk h1)

theorem jsStartsWith_append (p s : String) : jsStartsWith (p ++ s) p = true := by
  unfold jsStartsWith
  rw [String.data_append]
  exact List.isPrefixOf_iff_prefix.mpr (List.prefix_append _ _)

theorem jsSlice_append (p s : String) : jsSlice (p ++ s) p.data.length = s := by
  unfold jsSlice
  rw [String.data_append, List.drop_left]

theorem readStr_cons_hit (k s : String) (rest : Row) :
    readStr ((k, AttrVal.str s) :: rest) k = s := by
  simp [readStr, lookupAttr]

theorem readStr_cons_ne (k k' : String) (v : AttrVal) (rest : Row) (h : k' ≠ k) :
    readStr ((k', v) :: rest) k = readStr rest k := by
  simp [readStr, lookupAttr, List.find?_cons_of_neg, h]

theorem ne_empty_of_isNonEmpty {s : String} (h : isNonEmpty s = true) : s ≠ "" := by
  intro he
  subst he
  exact absurd h (by decide)

theorem orStr_empty_right (a : String) : orStr a "" = a := by
  unfold orStr
  split_ifs with h
  · exact (beq_iff_eq.mp h).symm
  · rfl

theorem orStr_of_ne {a : String} (b : String) (h : a ≠ "") : orStr a b = a := by
  unfold orStr
  simp [h]

theorem codeUnits_inj {s t : String} (h : codeUnits s = codeUnits t) : s = t := by
  have hchar : Function.Injective Char.toNat := by
    intro c d hcd
    have := Char.ofNat_toNat c
    rw [hcd, Char.ofNat_toNat d] at this
    exact this.symm
  have hdata : s.data = t.data := List.map_injective_iff.mpr hchar h
  exact congrArg String.mk hdata

/-!  ## The claims -/

/-- C5: `dmKey` (`buildDmId`) is symmetric and case-normalizing: for all
usernames `a`, `b`, `buildDmId a b = buildDmId b a`; when `lowercase a`
is code-unit-lexicographically at most `lowercase b`, the result is
`"DM#" ++ lowercase a ++ "#" ++ lowercase b`; and
`buildDmId "Naruto" "Guz" = buildDmId "Guz" "Naruto" = "DM#guz#naruto"`. -/
theorem c5_buildDmId_symmetric :
    (∀ a b : String, UsersRoutes.buildDmId a b = UsersRoutes.buildDmId b a) ∧
    (∀ a b : String, strLeB (jsToLower a) (jsToLower b) = true →
      UsersRoutes.buildDmId a b = "DM#" ++ jsToLower a ++ "#" ++ jsToLower b) ∧
    UsersRoutes.buildDmId "Naruto" "Guz" = "DM#guz#naruto" ∧
    UsersRoutes.buildDmId "Guz" "Naruto" = "DM#guz#naruto" := by
  refine ⟨?_, ?_, by decide, by decide⟩
  · intro a b
    unfold UsersRoutes.buildDmId
    by_cases h1 : strLtB (jsToLower b) (jsToLower a) = true
    · have h2 : strLtB (jsToLower a) (jsToLower b) = false := natListLt_asymm h1
      simp [h1, h2]
    · by_cases h2 : strLtB (jsToLower a) (jsToLower b) = true
      · simp [h1, h2]
      · have heq : jsToLower b = jsToLower a :=
          codeUnits_inj (natListLt_conn (Bool.not_eq_true _ ▸ h1) (Bool.not_eq_true _ ▸ h2))
        rw [heq]
  · intro a b hle
    have h1 : strLtB (jsToLower b) (jsToLower a) = false := by
      simpa [strLeB, Bool.not_eq_true'] using hle
    unfold UsersRoutes.buildDmId
    simp [h1]

/-- C5 witness: the second conjunct applied at a concrete pair. -/
theorem c5_buildDmId_witness :
    UsersRoutes.buildDmId "ann" "bob" = "DM#ann#bob" := by
  have h := c5_buildDmId_symmetric.2.1 "ann" "bob" (by decide)
  exact h.trans (by decide)

/-- C8 counterexample: the claim says a requested limit below 1 becomes 1,
but a requested limit of 0 is falsy in `Number(req.query.limit) || 50`
and becomes the default 50 instead. -/
theorem c8_clampLimit_counterexample :
    Messages.clampLimit (.int 0) = 50 ∧ (50 : Int) ≠ 1 := by decide

/-- C8 amended: a missing or non-numeric limit and a requested limit of 0
become 50; any other requested limit is clamped into [1, 200] (negatives
to 1, values above 200 to 200, in-range values unchanged); the effective
limit always lies in [1, 200] and no request is rejected. -/
theorem c8_clampLimit_amended :
    (∀ q : Int, 1 ≤ q → q ≤ 200 → Messages.clampLimit (.int q) = q) ∧
    (∀ q : Int, q < 0 → Messages.clampLimit (.int q) = 1) ∧
    (∀ q : Int, 200 < q → Messages.clampLimit (.int q) = 200) ∧
    Messages.clampLimit (.int 0) = 50 ∧
    Messages.clampLimit .nan = 50 ∧
    (∀ n, 1 ≤ Messages.clampLimit n ∧ Messages.clampLimit n ≤ 200) := by
  refine ⟨?_, ?_, ?_, by decide, by decide, ?_⟩
  · intro q h1 h2
    have hq : ¬ q = 0 := by omega
    simp only [Messages.clampLimit, hq, if_false]
    omega
  · intro q h
    have hq : ¬ q = 0 := by omega
    simp only [Messages.clampLimit, hq, if_false]
    omega
  · intro q h
    have hq : ¬ q = 0 := by omega
    simp only [Messages.clampLimit, hq, if_false]
    omega
  · intro n
    cases n with
    | nan => constructor <;> decide
    | int q =>
      by_cases hq : q = 0
      · subst hq
        constructor <;> decide
      · simp only [Messages.clampLimit, hq, if_false]
        constructor <;> omega

/-- C8 witness: the amended clamp applied at concrete limits. -/
theorem c8_clampLimit_witness :
    Messages.clampLimit (.int 37) = 37 ∧
    Messages.clampLimit (.int (-7)) = 1 ∧
    Messages.clampLimit (.int 300) = 200 :=
  ⟨c8_clampLimit_amended.1 37 (by decide) (by decide),
   c8_clampLimit_amended.2.1 (-7) (by decide),
   c8_clampLimit_amended.2.2.1 300 (by decide)⟩

/-- C9 counterexample: with channel rows named "B" and "a", the roster
comes out `["a", "B"]` (the `localeCompare`-based sort compares letters
case-insensitively at primary strength), although "B" strictly precedes
"a" under the case-sensitive lexicographic order the claim asserts — so
the consecutive roster pair ("a", "B") violates the claimed order. -/
theorem c9_sort_counterexample :
    Channels.scanChannelMetas true
        [[("PK", AttrVal.str "CHANNEL"), ("SK", AttrVal.str "CHANNEL#B")],
         [("PK", AttrVal.str "CHANNEL"), ("SK", AttrVal.str "CHANNEL#a")]] =
      [{ name := "a", isLocked := false }, { name := "B", isLocked := false }] ∧
    caseSensitiveLt "B" "a" = true := by decide

/-- C9 amended: the channel roster is sorted ascending by name under the
runtime's locale-aware comparison (`localeCompare`: case-insensitive at
primary strength, lowercase before uppercase on primary ties), not under
case-sensitive code-unit comparison. -/
theorem c9_sort_amended (showLocked : Bool) (table : List Row) :
    List.Sorted Channels.metaNameLe (Channels.scanChannelMetas showLocked table) := by
  unfold Channels.scanChannelMetas
  exact List.sorted_insertionSort _ _

/-- C3 counterexample: on an empty table the DM route does not expose the
empty result — it substitutes the static fallback list of candidate
users. -/
theorem c3_dm_empty_counterexample :
    Dms.listDmsForUser "alice" [] =
      [{ dmId := "DM#me#Jack-skellington", username := "Jack-skellington", lastMessageAt := none },
       { dmId := "DM#me#totoro", username := "totoro", lastMessageAt := none },
       { dmId := "DM#me#guz", username := "guz", lastMessageAt := none },
       { dmId := "DM#me#naruto", username := "naruto", lastMessageAt := none },
       { dmId := "DM#me#admin", username := "admin", lastMessageAt := none }] ∧
    Dms.listDmsForUser "alice" [] ≠ [] := by decide

/-- C3 amended: on a table with no DM thread rows the scan-derived list is
empty, and the route replaces the empty result with the static fallback
list of candidate users (minus the requester) under HTTP 200 — it is not
an error, but it is not an empty sequence either. -/
theorem c3_dm_empty_amended (me : String) (table : List Row)
    (h : ∀ r ∈ table, Dms.isDmRow (projectRow Dms.dmProjection r) = false) :
    Dms.scanAllDmMetas table = [] ∧
    Dms.listDmsForUser me table = Dms.fallbackStaticDms me := by
  have hfilter : (table.map (projectRow Dms.dmProjection)).filter Dms.isDmRow = [] := by
    rw [List.filter_eq_nil_iff]
    intro a ha
    rcases List.mem_map.mp ha with ⟨r, hr, rfl⟩
    simp [h r hr]
  have hscan : Dms.scanAllDmMetas table = [] := by
    unfold Dms.scanAllDmMetas
    rw [hfilter]
    rfl
  refine ⟨hscan, ?_⟩
  unfold Dms.listDmsForUser
  rw [hscan]
  rfl

/-- C3 witness: the amended statement applied to the empty table. -/
theorem c3_dm_empty_witness :
    Dms.scanAllDmMetas [] = [] ∧
    Dms.listDmsForUser "alice" [] = Dms.fallbackStaticDms "alice" :=
  c3_dm_empty_amended "alice" []
    (fun r hr => absurd hr (List.not_mem_nil r))

/-!  ### Helper lemmas about `createMessage` -/

theorem itemPK_msgItem (kind : Messages.MsgKind) (ch dm : Option String)
    (author text now uuid : String) :
    itemPK (Messages.msgItem kind ch dm author text now uuid) =
      Messages.buildPk kind ch dm := by
  simp [Messages.msgItem, itemPK, readStr, lookupAttr]

theorem itemSK_msgItem (kind : Messages.MsgKind) (ch dm : Option String)
    (author text now uuid : String) :
    itemSK (Messages.msgItem kind ch dm author text now uuid) =
      "MSG#" ++ now ++ "#" ++ uuid := by
  simp [Messages.msgItem, itemSK, readStr, lookupAttr]

theorem createMessage_error_iff (kind : Messages.MsgKind) (ch dm : Option String)
    (author text now uuid : String) (t : List Row) :
    Messages.createMessage kind ch dm author text now uuid t =
        .error .conditionalCheckFailed ↔
      Messages.hasKeyCollision t (Messages.buildPk kind ch dm)
        ("MSG#" ++ now ++ "#" ++ uuid) = true := by
  unfold Messages.createMessage Messages.condPut
  rw [itemPK_msgItem, itemSK_msgItem]
  by_cases hcol : Messages.hasKeyCollision t (Messages.buildPk kind ch dm)
      ("MSG#" ++ now ++ "#" ++ uuid) = true
  · simp [hcol]
  · simp [hcol]

theorem createMessage_ok (kind : Messages.MsgKind) (ch dm : Option String)
    (author text now uuid : String) (t : List Row)
    (h : Messages.hasKeyCollision t (Messages.buildPk kind ch dm)
      ("MSG#" ++ now ++ "#" ++ uuid) = false) :
    Messages.createMessage kind ch dm author text now uuid t =
      .ok (Messages.savedMessage kind ch dm author text now uuid,
           t ++ [Messages.msgItem kind ch dm author text now uuid]) := by
  unfold Messages.createMessage Messages.condPut
  rw [itemPK_msgItem, itemSK_msgItem, h]
  rfl

/-- C2 counterexample: on a table already holding a row with the colliding
(PK, SK) pair, `createMessage` fails outright with the store's
conditional-check error — it does not regenerate the suffix and retry,
although a put with a fresh suffix (here `"u2"`) would succeed on the
same table; and the alternate router's `createMessage` has no guard at
all: its unguarded put silently replaces the colliding row. -/
theorem c2_conflict_counterexample :
    Messages.createMessage .channel (some "general") none "alice" "hi"
        "2025-01-01T00:00:00.000Z" "u1"
        [[("PK", AttrVal.str "CHANNEL#general"),
          ("SK", AttrVal.str "MSG#2025-01-01T00:00:00.000Z#u1")]] =
      .error .conditionalCheckFailed ∧
    Messages.createMessage .channel (some "general") none "alice" "hi"
        "2025-01-01T00:00:00.000Z" "u2"
        [[("PK", AttrVal.str "CHANNEL#general"),
          ("SK", AttrVal.str "MSG#2025-01-01T00:00:00.000Z#u1")]] =
      .ok (Messages.savedMessage .channel (some "general") none "alice" "hi"
             "2025-01-01T00:00:00.000Z" "u2",
           [[("PK", AttrVal.str "CHANNEL#general"),
             ("SK", AttrVal.str "MSG#2025-01-01T00:00:00.000Z#u1")],
            Messages.msgItem .channel (some "general") none "alice" "hi"
              "2025-01-01T00:00:00.000Z" "u2"]) ∧
    (MessagesAlt.createMessageChannel "alice" "general" "hi"
        "2025-01-01T00:00:00.000Z" "u1"
        [[("PK", AttrVal.str "CHANNEL#general"),
          ("SK", AttrVal.str "MSG#2025-01-01T00:00:00.000Z#u1"),
          ("text", AttrVal.str "old")]]).2 =
      [[("PK", AttrVal.str "CHANNEL#general"),
        ("SK", AttrVal.str "MSG#2025-01-01T00:00:00.000Z#u1"),
        ("id", AttrVal.str "MSG#2025-01-01T00:00:00.000Z#u1"),
        ("kind", AttrVal.str "channel"), ("channel", AttrVal.str "general"),
        ("author", AttrVal.str "alice"), ("text", AttrVal.str "hi"),
        ("createdAt", AttrVal.str "2025-01-01T00:00:00.000Z")]] := by
  refine ⟨(createMessage_error_iff _ _ _ _ _ _ _ _).mpr (by decide),
    createMessage_ok _ _ _ _ _ _ _ _ (by decide), by decide⟩

/-- C2 amended: `createMessage` writes with a conditional guard on the
exact (PK, SK) pair — the put fails exactly when that pair already exists
— but a conditional failure is not retried in-process: no fresh suffix is
generated, the single attempt's store error propagates to the route's
catch-all (surfacing as HTTP 500 "create failed", not a distinguished
retryable write-conflict); on a conflict-free table the guarded item is
appended. -/
theorem c2_createMessage_amended (kind : Messages.MsgKind) (ch dm : Option String)
    (author text now uuid : String) (t : List Row) :
    (Messages.createMessage kind ch dm author text now uuid t =
        .error .conditionalCheckFailed ↔
      Messages.hasKeyCollision t (Messages.buildPk kind ch dm)
        ("MSG#" ++ now ++ "#" ++ uuid) = true) ∧
    (Messages.hasKeyCollision t (Messages.buildPk kind ch dm)
        ("MSG#" ++ now ++ "#" ++ uuid) = false →
      Messages.createMessage kind ch dm author text now uuid t =
        .ok (Messages.savedMessage kind ch dm author text now uuid,
             t ++ [Messages.msgItem kind ch dm author text now uuid])) :=
  ⟨createMessage_error_iff kind ch dm author text now uuid t,
   fun h => createMessage_ok kind ch dm author text now uuid t h⟩

/-- C2 witness: the amended statement applied on the empty table. -/
theorem c2_createMessage_witness :
    Messages.createMessage .channel (some "general") none "bo" "yo"
        "2025-02-02T08:00:00.000Z" "w1" [] =
      .ok (Messages.savedMessage .channel (some "general") none "bo" "yo"
             "2025-02-02T08:00:00.000Z" "w1",
           [Messages.msgItem .channel (some "general") none "bo" "yo"
              "2025-02-02T08:00:00.000Z" "w1"]) :=
  (c2_createMessage_amended .channel (some "general") none "bo" "yo"
    "2025-02-02T08:00:00.000Z" "w1" []).2 (by decide)

/-- C6 counterexample: the user-roster resolver ignores the explicit
`userId` attribute entirely (its scan does not even project it): a row
carrying both `userId="42"` and `PK="USER#99"` resolves to `"99"` in
`listAllUsers`, not `"42"` as the claim requires; moreover, in its
generic fallback `getUserIdFromKeys` prefers the SK-derived suffix over
the PK-derived one, against the claimed priority (b) before (c). -/
theorem c6_identity_counterexample :
    DynamoUser.listAllUsers
        [[("PK", AttrVal.str "USER#99"), ("SK", AttrVal.str "PROFILE#99"),
          ("username", AttrVal.str "bob"), ("userId", AttrVal.str "42")]] =
      [{ userId := "99", username := "bob", accessLevel := "user",
         pk := "USER#99", sk := "PROFILE#99" }] ∧
    ("99" : String) ≠ "42" ∧
    DynamoUser.getUserIdFromKeys "USER#11" "USER#22" = some "22" ∧
    ("22" : String) ≠ "11" := by
  refine ⟨by decide, by decide, by decide, by decide⟩

/-- C6 amended: the login route's resolution follows the claimed priority
exactly — explicit `userId` attribute first, else the `PK` suffix after
`"USER#"`, else the `SK` suffix, else the stored username — and a row
with both `userId="42"` and `PK="USER#99"` resolves to `"42"` there; the
user-roster resolver (`getUserIdFromKeys`) instead derives from the keys
alone: old-style `(USER#n, PROFILE#m)` pairs give the PK suffix and
new-style `(USER, USER#id)` pairs the SK suffix, never consulting an
explicit `userId` attribute. -/
theorem c6_identity_amended :
    (∀ (raw : Row) (uname u : String), Login.getStr raw "userId" = some u →
      u ≠ "" → Login.resolveUserId raw uname = u) ∧
    (∀ (raw : Row) (uname c : String), Login.getStr raw "userId" = none →
      Login.getStr raw "PK" = some ("USER#" ++ c) → c ≠ "" →
      Login.resolveUserId raw uname = c) ∧
    (∀ (raw : Row) (uname c : String), Login.getStr raw "userId" = none →
      (∀ p, Login.getStr raw "PK" = some p → jsStartsWith p "USER#" = false) →
      Login.getStr raw "SK" = some ("USER#" ++ c) → c ≠ "" →
      Login.resolveUserId raw uname = c) ∧
    (∀ (raw : Row) (uname n : String), Login.getStr raw "userId" = none →
      (∀ p, Login.getStr raw "PK" = some p → jsStartsWith p "USER#" = false) →
      (∀ p, Login.getStr raw "SK" = some p → jsStartsWith p "USER#" = false) →
      Login.getStr raw "username" = some n → n ≠ "" →
      Login.resolveUserId raw uname = n) ∧
    Login.resolveUserId
      [("userId", AttrVal.str "42"), ("PK", AttrVal.str "USER#99"),
       ("SK", AttrVal.str "PROFILE#99"), ("username", AttrVal.str "bob")]
      "bob" = "42" ∧
    (∀ n m : String, DynamoUser.getUserIdFromKeys ("USER#" ++ n) ("PROFILE#" ++ m) =
      some n) ∧
    (∀ id : String, DynamoUser.getUserIdFromKeys "USER" ("USER#" ++ id) = some id) := by
  refine ⟨?_, ?_, ?_, ?_, by decide, ?_, ?_⟩
  · intro raw uname u h1 h2
    unfold Login.resolveUserId
    rw [h1]
    simp [Option.orElse, h2]
  · intro raw uname c h1 h2 h3
    unfold Login.resolveUserId
    rw [h1, h2]
    have hne : ("USER#" ++ c : String) ≠ "" := append_ne_empty_left _ _ (by decide)
    have hsl : jsSlice ("USER#" ++ c) 5 = c := jsSlice_append "USER#" c
    simp [Option.orElse, jsStartsWith_append, hne, hsl, h3]
  · intro raw uname c h1 h2 h3 h4
    unfold Login.resolveUserId
    rw [h1, h3]
    have hne : ("USER#" ++ c : String) ≠ "" := append_ne_empty_left _ _ (by decide)
    have hsl : jsSlice ("USER#" ++ c) 5 = c := jsSlice_append "USER#" c
    cases hpk : Login.getStr raw "PK" with
    | none => simp [Option.orElse, jsStartsWith_append, hne, hsl, h4]
    | some p =>
      have := h2 p hpk
      simp [Option.orElse, this, jsStartsWith_append, hne, hsl, h4]
  · intro raw uname n h1 h2 h3 h4 h5
    unfold Login.resolveUserId
    rw [h1, h4]
    cases hpk : Login.getStr raw "PK" with
    | none =>
      cases hsk : Login.getStr raw "SK" with
      | none => simp [Option.orElse, h5]
      | some q =>
        have := h3 q hsk
        simp [Option.orElse, this, h5]
    | some p =>
      have hp := h2 p hpk
      cases hsk : Login.getStr raw "SK" with
      | none => simp [Option.orElse, hp, h5]
      | some q =>
        have hq := h3 q hsk
        simp [Option.orElse, hp, hq, h5]
  · intro n m
    unfold DynamoUser.getUserIdFromKeys
    have hn : ("USER#" ++ n : String) ≠ "" := append_ne_empty_left _ _ (by decide)
    have hm : ("PROFILE#" ++ m : String) ≠ "" := append_ne_empty_left _ _ (by decide)
    have hsl : jsSlice ("USER#" ++ n) 5 = n := jsSlice_append "USER#" n
    simp [hn, hm, jsStartsWith_append, hsl]
  · intro id
    unfold DynamoUser.getUserIdFromKeys
    have hid : ("USER#" ++ id : String) ≠ "" := append_ne_empty_left _ _ (by decide)
    have hsl : jsSlice ("USER#" ++ id) 5 = id := jsSlice_append "USER#" id
    have hu : jsStartsWith "USER" "USER#" = false := by decide
    simp [hid, jsStartsWith_append, hsl, hu]

/-- C6 witness: the login-route priority applied to a concrete row where
the explicit attribute and both keys disagree. -/
theorem c6_identity_witness :
    Login.resolveUserId
      [("userId", AttrVal.str "7"), ("PK", AttrVal.str "USER#8"),
       ("SK", AttrVal.str "USER#9")] "zoe" = "7" :=
  c6_identity_amended.1
    [("userId", AttrVal.str "7"), ("PK", AttrVal.str "USER#8"),
     ("SK", AttrVal.str "USER#9")] "zoe" "7" (by decide) (by decide)

/-- C10 counterexample: through the alternate public route kept in the
repository, a request whose `kind` is `"dm"` and whose channel is
`"General"` (not exactly `"general"`) still writes a message row — the
route never reads `kind` and compares the channel case-insensitively,
storing the channel name as given. -/
theorem c10_public_counterexample :
    MessagesAlt.postPublic
        [("kind", AttrVal.str "dm"), ("channel", AttrVal.str "General"),
         ("text", AttrVal.str "hi")]
        "2025-01-01T10:00:00.000Z" "u1" [] =
      (201,
       some { id := "MSG#2025-01-01T10:00:00.000Z#u1", author := "Guest",
              text := "hi", createdAt := "2025-01-01T10:00:00.000Z",
              channel := some "General", dmId := none },
       [[("PK", AttrVal.str "CHANNEL#General"),
         ("SK", AttrVal.str "MSG#2025-01-01T10:00:00.000Z#u1"),
         ("id", AttrVal.str "MSG#2025-01-01T10:00:00.000Z#u1"),
         ("kind", AttrVal.str "channel"), ("channel", AttrVal.str "General"),
         ("author", AttrVal.str "Guest"), ("text", AttrVal.str "hi"),
         ("createdAt", AttrVal.str "2025-01-01T10:00:00.000Z")]]) ∧
    ("General" : String) ≠ "general" := by
  refine ⟨by decide, by decide⟩

/-- C10 amended: on the primary messages router the claim holds — the
public route writes a row only when the lowercased `kind` is `"channel"`,
the channel is exactly `"general"` and the trimmed text is non-empty;
every row it writes has author exactly `"Guest"`; any other request gets
status 400 (or 500 on a store conflict) and writes nothing.  The
alternate router in the repository differs: it ignores `kind` and accepts
any casing of `"general"`, writing the channel name verbatim (still as
`"Guest"`). -/
theorem c10_public_amended :
    (∀ (body : Row) (now uuid : String) (t : List Row),
      ¬(jsToLower (readStr body "kind") = "channel" ∧
          readStr body "channel" = "general") →
      Messages.postPublic body now uuid t = (400, none, t)) ∧
    (∀ (body : Row) (now uuid : String) (t : List Row),
      jsToLower (readStr body "kind") = "channel" →
      readStr body "channel" = "general" →
      isNonEmpty (readStr body "text") = false →
      Messages.postPublic body now uuid t = (400, none, t)) ∧
    (∀ (body : Row) (now uuid : String) (t : List Row),
      jsToLower (readStr body "kind") = "channel" →
      readStr body "channel" = "general" →
      isNonEmpty (readStr body "text") = true →
      Messages.hasKeyCollision t "CHANNEL#general" ("MSG#" ++ now ++ "#" ++ uuid) = false →
      Messages.postPublic body now uuid t =
        (201,
         some (Messages.savedMessage .channel (some "general") none "Guest"
                 (readStr body "text") now uuid),
         t ++ [Messages.msgItem .channel (some "general") none "Guest"
                 (readStr body "text") now uuid])) ∧
    (∀ (body : Row) (now uuid : String) (t : List Row),
      jsToLower (readStr body "kind") = "channel" →
      readStr body "channel" = "general" →
      isNonEmpty (readStr body "text") = true →
      Messages.hasKeyCollision t "CHANNEL#general" ("MSG#" ++ now ++ "#" ++ uuid) = true →
      Messages.postPublic body now uuid t = (500, none, t)) ∧
    (∀ (body : Row) (now uuid : String) (t : List Row),
      jsTrim (readStr body "channel") ≠ "" →
      jsTrim (readStr body "text") ≠ "" →
      jsToLower (jsTrim (readStr body "channel")) ≠ "general" →
      MessagesAlt.postPublic body now uuid t = (403, none, t)) ∧
    (∀ (body : Row) (now uuid : String) (t : List Row),
      jsTrim (readStr body "channel") ≠ "" →
      jsTrim (readStr body "text") ≠ "" →
      jsToLower (jsTrim (readStr body "channel")) = "general" →
      (MessagesAlt.postPublic body now uuid t).1 = 201 ∧
      ((MessagesAlt.postPublic body now uuid t).2.1.map (fun m => m.author)) = some "Guest" ∧
      ((MessagesAlt.postPublic body now uuid t).2.1.map (fun m => m.channel)) =
        some (some (jsTrim (readStr body "channel")))) := by
  have hb : Messages.buildPk .channel (some "general") none = "CHANNEL#general" := by decide
  refine ⟨?_, ?_, ?_, ?_, ?_, ?_⟩
  · intro body now uuid t h
    unfold Messages.postPublic Messages.readFromBody
    by_cases hk : jsToLower (readStr body "kind") = "channel"
    · have hc : readStr body "channel" ≠ "general" := fun hc => h ⟨hk, hc⟩
      simp [hk, hc]
    · simp [hk]
  · intro body now uuid t hk hc htext
    unfold Messages.postPublic Messages.readFromBody
    simp [hk, hc, htext]
  · intro body now uuid t hk hc htext hcol
    have hok := createMessage_ok .channel (some "general") none "Guest"
      (readStr body "text") now uuid t (by rw [hb]; exact hcol)
    unfold Messages.postPublic Messages.readFromBody
    rw [hc]
    simp [hk, htext, hok]
  · intro body now uuid t hk hc htext hcol
    have herr := (createMessage_error_iff .channel (some "general") none "Guest"
      (readStr body "text") now uuid t).mpr (by rw [hb]; exact hcol)
    unfold Messages.postPublic Messages.readFromBody
    rw [hc]
    simp [hk, htext, herr]
  · intro body now uuid t hc htext hlower
    unfold MessagesAlt.postPublic MessagesAlt.safeStringField
    simp [hc, htext, hlower]
  · intro body now uuid t hc htext hlower
    unfold MessagesAlt.postPublic MessagesAlt.safeStringField MessagesAlt.createMessageChannel
    simp [hc, htext, hlower]

/-- C10 witness: the primary route's success branch applied to a concrete
request on the empty table. -/
theorem c10_public_witness :
    Messages.postPublic
        [("kind", AttrVal.str "Channel"), ("channel", AttrVal.str "general"),
         ("text", AttrVal.str "hello")]
        "2025-03-03T12:00:00.000Z" "w9" [] =
      (201,
       some (Messages.savedMessage .channel (some "general") none "Guest"
               "hello" "2025-03-03T12:00:00.000Z" "w9"),
       [Messages.msgItem .channel (some "general") none "Guest" "hello"
          "2025-03-03T12:00:00.000Z" "w9"]) := by
  have h := c10_public_amended.2.2.1
    [("kind", AttrVal.str "Channel"), ("channel", AttrVal.str "general"),
     ("text", AttrVal.str "hello")]
    "2025-03-03T12:00:00.000Z" "w9" [] (by decide) (by decide) (by decide) (by decide)
  exact h.trans (by decide)

/-!  ### Helper lemmas about the channel dedup map -/

theorem lockOf_cons (e : Channels.ChannelMeta) (rest : List Channels.ChannelMeta)
    (n : String) :
    lockOf (e :: rest) n =
      if e.name == n then some e.isLocked else lockOf rest n := by
  by_cases h : (e.name == n) = true
  · simp [lockOf, List.find?_cons, h]
  · simp only [Bool.not_eq_true] at h
    simp [lockOf, List.find?_cons, h]

theorem lockOf_map_merge (item : Channels.ChannelMeta) (n : String) :
    ∀ acc : List Channels.ChannelMeta,
      lockOf (acc.map (fun e =>
        if e.name == item.name then
          { name := e.name, isLocked := e.isLocked || item.isLocked }
        else e)) n =
      (lockOf acc n).map (fun b => if item.name = n then b || item.isLocked else b) := by
  intro acc
  induction acc with
  | nil => rfl
  | cons e rest ih =>
    rw [List.map_cons, lockOf_cons, lockOf_cons]
    have hname : (if e.name == item.name then
        ({ name := e.name, isLocked := e.isLocked || item.isLocked } : Channels.ChannelMeta)
      else e).name = e.name := by
      split_ifs <;> rfl
    rw [hname]
    by_cases he : (e.name == n) = true
    · rw [if_pos he, if_pos he]
      have hp : e.name = n := beq_iff_eq.mp he
      by_cases him : item.name = n
      · have hei : (e.name == item.name) = true :=
          beq_iff_eq.mpr (hp.trans him.symm)
        simp [hei, him, hp]
      · have hei : (e.name == item.name) = false := by
          rw [beq_eq_false_iff_ne]
          exact fun h => him (h ▸ hp)
        have him' : ¬ n = item.name := fun h => him h.symm
        simp [hei, him, him', hp]
    · rw [if_neg he, if_neg he]
      exact ih

theorem lockOf_upsert (acc : List Channels.ChannelMeta)
    (item : Channels.ChannelMeta) (n : String) :
    lockOf (Channels.upsertMeta acc item) n =
      if item.name = n then
        some ((lockOf acc n).getD false || item.isLocked)
      else lockOf acc n := by
  unfold Channels.upsertMeta
  by_cases hany : acc.any (fun e => e.name == item.name) = true
  · rw [if_pos hany, lockOf_map_merge]
    by_cases hin : item.name = n
    · subst hin
      have hsome : (acc.find? (fun e => e.name == item.name)).isSome := by
        rw [List.find?_isSome]
        rcases List.any_eq_true.mp hany with ⟨e, he, hpe⟩
        exact ⟨e, he, hpe⟩
      rcases Option.isSome_iff_exists.mp hsome with ⟨e, hfind⟩
      simp [lockOf, hfind]
    · simp [hin]
  · rw [if_neg hany]
    by_cases hin : item.name = n
    · subst hin
      have hnone : acc.find? (fun e => e.name == item.name) = none := by
        rw [List.find?_eq_none]
        intro e he
        exact fun hpe => hany (List.any_eq_true.mpr ⟨e, he, hpe⟩)
      simp [lockOf, List.find?_append, hnone]
    · by_cases hf : (acc.find? (fun e => e.name == n)).isSome
      · rcases Option.isSome_iff_exists.mp hf with ⟨e, hfind⟩
        simp [lockOf, List.find?_append, hfind, hin]
      · have hnone : acc.find? (fun e => e.name == n) = none :=
          Option.not_isSome_iff_eq_none.mp hf
        simp [lockOf, List.find?_append, hnone, hin]

theorem dedupByName_eq_foldl (l : List Channels.ChannelMeta) :
    Channels.dedupByName l = l.foldl dedupStep [] := rfl

theorem lockOf_foldl (n : String) (hn : n ≠ "") :
    ∀ (l acc : List Channels.ChannelMeta),
      lockOf (l.foldl dedupStep acc) n =
        match lockOf acc n with
        | some b => some (b || anyLockedFor n l)
        | none =>
          if containsName n l then some (anyLockedFor n l) else none := by
  intro l
  induction l with
  | nil =>
    intro acc
    rw [List.foldl_nil]
    cases h : lockOf acc n with
    | none => simp [containsName]
    | some b => simp [anyLockedFor]
  | cons i rest ih =>
    intro acc
    rw [List.foldl_cons]
    have hstep : dedupStep acc i =
        if i.name == "" then acc else Channels.upsertMeta acc i := rfl
    rw [hstep]
    by_cases hie : i.name == ""
    · have hin : ¬ i.name = n := fun h => hn (h ▸ (beq_iff_eq.mp hie))
      rw [if_pos hie, ih acc]
      have h1 : anyLockedFor n (i :: rest) = anyLockedFor n rest := by
        simp [anyLockedFor, hin]
      have h2 : containsName n (i :: rest) = containsName n rest := by
        simp [containsName, hin]
      rw [h1, h2]
    · rw [if_neg hie, ih (Channels.upsertMeta acc i), lockOf_upsert]
      by_cases hin : i.name = n
      · rw [if_pos hin]
        have h1 : anyLockedFor n (i :: rest) = (i.isLocked || anyLockedFor n rest) := by
          simp [anyLockedFor, hin]
        cases h : lockOf acc n with
        | some b =>
          simp only [h, Option.getD_some, h1]
          rw [Bool.or_assoc]
        | none =>
          simp only [h, Option.getD_none, Bool.false_or, h1]
          have hc : containsName n (i :: rest) = true := by
            simp [containsName, hin]
          rw [if_pos hc]
      · rw [if_neg hin]
        have h1 : anyLockedFor n (i :: rest) = anyLockedFor n rest := by
          simp [anyLockedFor, hin]
        have h2 : containsName n (i :: rest) = containsName n rest := by
          simp [containsName, hin]
        rw [h1, h2]

/-- Distinct names and non-empty names are invariants of the dedup loop. -/
theorem namesOk_foldl :
    ∀ (l acc : List Channels.ChannelMeta),
      acc.Pairwise (fun a b => a.name ≠ b.name) → (∀ e ∈ acc, e.name ≠ "") →
      (l.foldl dedupStep acc).Pairwise (fun a b => a.name ≠ b.name) ∧
        (∀ e ∈ l.foldl dedupStep acc, e.name ≠ "") := by
  intro l
  induction l with
  | nil => intro acc h1 h2; exact ⟨h1, h2⟩
  | cons i rest ih =>
    intro acc h1 h2
    rw [List.foldl_cons]
    have hstep : dedupStep acc i =
        if i.name == "" then acc else Channels.upsertMeta acc i := rfl
    rw [hstep]
    by_cases hie : i.name == ""
    · rw [if_pos hie]
      exact ih acc h1 h2
    · rw [if_neg hie]
      apply ih
      · unfold Channels.upsertMeta
        split_ifs with hany
        · rw [List.pairwise_map]
          apply h1.imp_of_mem
          intro a b _ _ hab
          split_ifs <;> exact hab
        · rw [List.pairwise_append]
          refine ⟨h1, List.pairwise_singleton _ _, ?_⟩
          intro a ha b hb
          rw [List.mem_singleton] at hb
          subst hb
          intro hname
          exact hany (List.any_eq_true.mpr ⟨a, ha, by simp [hname]⟩)
      · unfold Channels.upsertMeta
        intro e he
        split_ifs at he with hany
        · rcases List.mem_map.mp he with ⟨a, ha, rfl⟩
          have := h2 a ha
          split_ifs <;> simpa using this
        · rcases List.mem_append.mp he with ha | hb
          · exact h2 e ha
          · rw [List.mem_singleton] at hb
            subst hb
            exact fun h => hie (beq_iff_eq.mpr h)

/-- In a list with pairwise-distinct names, membership pins down `lockOf`. -/
theorem lockOf_of_mem {l : List Channels.ChannelMeta} {m : Channels.ChannelMeta}
    (hnodup : l.Pairwise (fun a b => a.name ≠ b.name)) (hm : m ∈ l) :
    lockOf l m.name = some m.isLocked := by
  induction l with
  | nil => exact absurd hm (List.not_mem_nil m)
  | cons e rest ih =>
    rcases List.mem_cons.mp hm with rfl | hm'
    · simp [lockOf]
    · have hne : e.name ≠ m.name := (List.pairwise_cons.mp hnodup).1 m hm'
      rw [lockOf_cons, if_neg (by simpa using hne)]
      exact ih (List.pairwise_cons.mp hnodup).2 hm'

theorem scanChannelMetas_true_eq (t : List Row) :
    Channels.scanChannelMetas true t =
      List.insertionSort Channels.metaNameLe
        (Channels.dedupByName (Channels.channelRawItems t)) := rfl

theorem scanChannelMetas_false_eq (t : List Row) :
    Channels.scanChannelMetas false t =
      List.insertionSort Channels.metaNameLe
        ((Channels.dedupByName (Channels.channelRawItems t)).filter
          (fun ch => !ch.isLocked)) := rfl

theorem dedup_namesOk (l : List Channels.ChannelMeta) :
    (Channels.dedupByName l).Pairwise (fun a b => a.name ≠ b.name) ∧
      (∀ e ∈ Channels.dedupByName l, e.name ≠ "") := by
  rw [dedupByName_eq_foldl]
  exact namesOk_foldl l [] List.Pairwise.nil (fun e he => absurd he (List.not_mem_nil e))

/-- C7: channel dedup is by exact (case-sensitive) name with OR-merge of
`isLocked` across all duplicate raw rows for that name; with
`includeLocked = false` every entry whose merged flag is true is omitted;
on the two-row "ops" table (one unlocked, one locked row) the roster with
locked entries is exactly one "ops" entry with `isLocked = true` and the
public roster omits "ops" entirely. -/
theorem c7_lock_or_merge :
    (∀ t : List Row,
      (Channels.scanChannelMetas true t).Pairwise (fun a b => a.name ≠ b.name)) ∧
    (∀ (t : List Row) (m : Channels.ChannelMeta),
      m ∈ Channels.scanChannelMetas true t →
      m.name ≠ "" ∧ m.isLocked = anyLockedFor m.name (Channels.channelRawItems t)) ∧
    (∀ (t : List Row) (m : Channels.ChannelMeta),
      m ∈ Channels.scanChannelMetas false t ↔
        (m ∈ Channels.scanChannelMetas true t ∧ m.isLocked = false)) ∧
    (∀ (t : List Row) (n : String), n ≠ "" →
      containsName n (Channels.channelRawItems t) = true →
      ∃ m ∈ Channels.scanChannelMetas true t, m.name = n) ∧
    (Channels.scanChannelMetas true
        [[("PK", AttrVal.str "CHANNEL"), ("SK", AttrVal.str "CHANNEL#ops"),
          ("isLocked", AttrVal.boolean false)],
         [("PK", AttrVal.str "CHANNEL#ops"), ("SK", AttrVal.str "META#INFO"),
          ("isLocked", AttrVal.boolean true)]] =
        [{ name := "ops", isLocked := true }] ∧
     Channels.scanChannelMetas false
        [[("PK", AttrVal.str "CHANNEL"), ("SK", AttrVal.str "CHANNEL#ops"),
          ("isLocked", AttrVal.boolean false)],
         [("PK", AttrVal.str "CHANNEL#ops"), ("SK", AttrVal.str "META#INFO"),
          ("isLocked", AttrVal.boolean true)]] = []) := by
  have hmemT : ∀ (t : List Row) (m : Channels.ChannelMeta),
      m ∈ Channels.scanChannelMetas true t ↔
        m ∈ Channels.dedupByName (Channels.channelRawItems t) := by
    intro t m
    rw [scanChannelMetas_true_eq]
    exact (List.perm_insertionSort _ _).mem_iff
  refine ⟨?_, ?_, ?_, ?_, by decide, by decide⟩
  · intro t
    rw [scanChannelMetas_true_eq]
    exact ((List.perm_insertionSort _ _).pairwise_iff
      (fun h => h.symm)).mpr (dedup_namesOk _).1
  · intro t m hm
    rw [hmemT] at hm
    have hnodup := (dedup_namesOk (Channels.channelRawItems t)).1
    have hname : m.name ≠ "" := (dedup_namesOk (Channels.channelRawItems t)).2 m hm
    refine ⟨hname, ?_⟩
    have h1 : lockOf (Channels.dedupByName (Channels.channelRawItems t)) m.name =
        some m.isLocked := lockOf_of_mem hnodup hm
    rw [dedupByName_eq_foldl, lockOf_foldl m.name hname] at h1
    have h0 : lockOf [] m.name = none := rfl
    rw [h0] at h1
    by_cases hc : containsName m.name (Channels.channelRawItems t) = true
    · rw [if_pos hc] at h1
      exact (Option.some_inj.mp h1).symm
    · rw [if_neg hc] at h1
      exact absurd h1 (by simp)
  · intro t m
    rw [scanChannelMetas_false_eq]
    rw [(List.perm_insertionSort _ _).mem_iff, List.mem_filter, hmemT,
        Bool.not_eq_true']
  · intro t n hn hc
    have h1 : lockOf (Channels.dedupByName (Channels.channelRawItems t)) n =
        if containsName n (Channels.channelRawItems t) then
          some (anyLockedFor n (Channels.channelRawItems t)) else none := by
      rw [dedupByName_eq_foldl, lockOf_foldl n hn]
      rfl
    rw [if_pos hc] at h1
    unfold lockOf at h1
    cases hf : (Channels.dedupByName (Channels.channelRawItems t)).find?
        (fun e => e.name == n) with
    | none =>
      rw [hf] at h1
      exact absurd h1 (by simp)
    | some e =>
      refine ⟨e, (hmemT t e).mpr (List.mem_of_find?_eq_some hf), ?_⟩
      have hp := List.find?_some hf
      simpa using hp

/-!  ### Helper lemmas about `fetchMessages` -/

theorem fetchMessages_fallback_channel (c : String) (limit : Nat) (t : List Row)
    (hq : (Messages.queryMsgA t ("CHANNEL#" ++ c) limit).filterMap
      Messages.mapItemToMessage = []) :
    Messages.fetchMessages .channel ("CHANNEL#" ++ c) limit t =
      (List.insertionSort Messages.createdAtLe
        (((t.map (projectRow Messages.msgProjection)).filter
          (fun obj => orStr (readStr obj "PK") (readStr obj "pk") ==
            "MSG#CHANNEL#" ++ c)).filterMap Messages.mapItemToMessage)).take limit := by
  have hsl : jsSlice ("CHANNEL#" ++ c) 8 = c := jsSlice_append "CHANNEL#" c
  simp only [Messages.fetchMessages]
  rw [hq]
  simp [hsl]

theorem mapItem_legacy_channel (c a x n : String)
    (ha : isNonEmpty a = true) (hx : isNonEmpty x = true)
    (hn : isNonEmpty n = true) :
    Messages.mapItemToMessage
        [("PK", AttrVal.str ("MSG#CHANNEL#" ++ c)), ("author", AttrVal.str a),
         ("text", AttrVal.str x), ("createdAt", AttrVal.str n)] =
      some { id := "", kind := .channel, channel := some c, dmId := none,
             author := a, text := x, createdAt := n, sender := some a,
             time := Messages.shortTime n } := by
  have hPK : ("MSG#CHANNEL#" ++ c : String) ≠ "" :=
    append_ne_empty_left _ _ (by decide)
  have hC : jsStartsWith ("MSG#CHANNEL#" ++ c) "CHANNEL#" = false := by
    unfold jsStartsWith
    rw [String.data_append]
    rfl
  have hD : jsStartsWith ("MSG#CHANNEL#" ++ c) "DM#" = false := by
    unfold jsStartsWith
    rw [String.data_append]
    rfl
  have hM : jsStartsWith ("MSG#CHANNEL#" ++ c) "MSG#CHANNEL#" = true :=
    jsStartsWith_append _ _
  have hsl : jsSlice ("MSG#CHANNEL#" ++ c) 12 = c := jsSlice_append "MSG#CHANNEL#" c
  have hna : a ≠ "" := ne_empty_of_isNonEmpty ha
  have hnx : x ≠ "" := ne_empty_of_isNonEmpty hx
  have hnn : n ≠ "" := ne_empty_of_isNonEmpty hn
  unfold Messages.mapItemToMessage
  simp [Messages.readAuthor, Messages.readMessageText, readStr, lookupAttr, orStr,
        hPK, hC, hD, hM, hsl, hna, hnx, hnn, ha, hx, hn]

theorem startsWith_msg (now uuid : String) :
    jsStartsWith ("MSG#" ++ now ++ "#" ++ uuid) "MSG#" = true := by
  rw [show ("MSG#" ++ now ++ "#" ++ uuid : String) =
      "MSG#" ++ (now ++ "#" ++ uuid) from by
    simp [String.append_assoc]]
  exact jsStartsWith_append _ _

theorem msgSk_ne_empty (now uuid : String) :
    ("MSG#" ++ now ++ "#" ++ uuid : String) ≠ "" := by
  rw [show ("MSG#" ++ now ++ "#" ++ uuid : String) =
      "MSG#" ++ (now ++ "#" ++ uuid) from by
    simp [String.append_assoc]]
  exact append_ne_empty_left _ _ (by decide)

theorem createMessage_ok_inv {kind : Messages.MsgKind} {ch dm : Option String}
    {author text now uuid : String} {t t' : List Row} {m : Messages.ChatMessage}
    (h : Messages.createMessage kind ch dm author text now uuid t = .ok (m, t')) :
    m = Messages.savedMessage kind ch dm author text now uuid ∧
      t' = t ++ [Messages.msgItem kind ch dm author text now uuid] := by
  by_cases hcol : Messages.hasKeyCollision t (Messages.buildPk kind ch dm)
      ("MSG#" ++ now ++ "#" ++ uuid) = true
  · rw [(createMessage_error_iff kind ch dm author text now uuid t).mpr hcol] at h
    exact absurd h (by simp)
  · rw [createMessage_ok kind ch dm author text now uuid t
      (Bool.not_eq_true _ ▸ hcol)] at h
    have h1 := Except.ok.inj h
    exact ⟨(Prod.mk.injEq _ _ _ _ ▸ h1).1.symm, (Prod.mk.injEq _ _ _ _ ▸ h1).2.symm⟩

theorem mapItem_msgItem_channel (c author text now uuid : String)
    (hc : c ≠ "") (ha : isNonEmpty author = true) (hx : isNonEmpty text = true)
    (hn : isNonEmpty now = true) :
    Messages.mapItemToMessage
        (Messages.msgItem .channel (some c) none author text now uuid) =
      some (Messages.savedMessage .channel (some c) none author text now uuid) := by
  have hcb : (c != "") = true := by
    simp [hc]
  have hpk : Messages.buildPk .channel (some c) none = "CHANNEL#" ++ c := by
    simp [Messages.buildPk, hcb]
  have hitem : Messages.msgItem .channel (some c) none author text now uuid =
      [("PK", AttrVal.str ("CHANNEL#" ++ c)),
       ("SK", AttrVal.str ("MSG#" ++ now ++ "#" ++ uuid)),
       ("kind", AttrVal.str "channel"), ("channel", AttrVal.str c),
       ("author", AttrVal.str author), ("text", AttrVal.str text),
       ("createdAt", AttrVal.str now),
       ("id", AttrVal.str ("MSG#" ++ now ++ "#" ++ uuid))] := by
    simp [Messages.msgItem, hpk]
  have hCN : ("CHANNEL#" ++ c : String) ≠ "" := append_ne_empty_left _ _ (by decide)
  have hSK : ("MSG#" ++ now ++ "#" ++ uuid : String) ≠ "" := msgSk_ne_empty now uuid
  have hst : jsStartsWith ("CHANNEL#" ++ c) "CHANNEL#" = true := jsStartsWith_append _ _
  have hsl : jsSlice ("CHANNEL#" ++ c) 8 = c := jsSlice_append "CHANNEL#" c
  have hna : author ≠ "" := ne_empty_of_isNonEmpty ha
  have hnx : text ≠ "" := ne_empty_of_isNonEmpty hx
  have hnn : now ≠ "" := ne_empty_of_isNonEmpty hn
  rw [hitem]
  unfold Messages.mapItemToMessage
  simp [Messages.readAuthor, Messages.readMessageText, readStr, lookupAttr, orStr,
        Messages.savedMessage, hCN, hSK, hst, hsl, hna, hnx, hnn, ha, hx, hn]

theorem mapItem_msgItem_dm (d author text now uuid : String)
    (hd1 : jsStartsWith d "DM#" = true) (hd2 : jsStartsWith d "CHANNEL#" = false)
    (hdne : d ≠ "") (ha : isNonEmpty author = true) (hx : isNonEmpty text = true)
    (hn : isNonEmpty now = true) :
    Messages.mapItemToMessage
        (Messages.msgItem .dm none (some d) author text now uuid) =
      some (Messages.savedMessage .dm none (some d) author text now uuid) := by
  have hdb : (d != "") = true := by
    simp [hdne]
  have hpk : Messages.buildPk .dm none (some d) = d := by
    simp [Messages.buildPk, hdb]
  have hitem : Messages.msgItem .dm none (some d) author text now uuid =
      [("PK", AttrVal.str d),
       ("SK", AttrVal.str ("MSG#" ++ now ++ "#" ++ uuid)),
       ("kind", AttrVal.str "dm"), ("dmId", AttrVal.str d),
       ("author", AttrVal.str author), ("text", AttrVal.str text),
       ("createdAt", AttrVal.str now),
       ("id", AttrVal.str ("MSG#" ++ now ++ "#" ++ uuid))] := by
    simp [Messages.msgItem, hpk]
  have hSK : ("MSG#" ++ now ++ "#" ++ uuid : String) ≠ "" := msgSk_ne_empty now uuid
  have hna : author ≠ "" := ne_empty_of_isNonEmpty ha
  have hnx : text ≠ "" := ne_empty_of_isNonEmpty hx
  have hnn : now ≠ "" := ne_empty_of_isNonEmpty hn
  rw [hitem]
  unfold Messages.mapItemToMessage
  simp [Messages.readAuthor, Messages.readMessageText, readStr, lookupAttr, orStr,
        Messages.savedMessage, hd1, hd2, hdne, hSK, hna, hnx, hnn, ha, hx, hn]

/-- Shared core of the chronological-order claim on the pattern-A query
path: after three sequential `createMessage` calls into a thread whose
partition held no other pattern-A message rows, `fetchMessages` returns
exactly the three saved messages in send order, provided the three sort
keys are non-decreasing (non-decreasing `createdAt`, ties broken by the
unique suffix, since the sort key is `"MSG#"+createdAt+"#"+suffix`). -/
theorem fetchMessages_three (kind : Messages.MsgKind) (ch dm : Option String)
    (key : String) (limit : Nat) (t0 : List Row)
    (a1 x1 n1 u1 a2 x2 n2 u2 a3 x3 n3 u3 : String)
    (m1 m2 m3 : Messages.ChatMessage) (t1 t2 t3 : List Row)
    (hpk : Messages.buildPk kind ch dm = key)
    (hm1 : Messages.mapItemToMessage (Messages.msgItem kind ch dm a1 x1 n1 u1) =
      some (Messages.savedMessage kind ch dm a1 x1 n1 u1))
    (hm2 : Messages.mapItemToMessage (Messages.msgItem kind ch dm a2 x2 n2 u2) =
      some (Messages.savedMessage kind ch dm a2 x2 n2 u2))
    (hm3 : Messages.mapItemToMessage (Messages.msgItem kind ch dm a3 x3 n3 u3) =
      some (Messages.savedMessage kind ch dm a3 x3 n3 u3))
    (h12 : strLeB ("MSG#" ++ n1 ++ "#" ++ u1) ("MSG#" ++ n2 ++ "#" ++ u2) = true)
    (h23 : strLeB ("MSG#" ++ n2 ++ "#" ++ u2) ("MSG#" ++ n3 ++ "#" ++ u3) = true)
    (hlim : 3 ≤ limit)
    (h0 : t0.filter
      (fun r => itemPK r == key && jsStartsWith (itemSK r) "MSG#") = [])
    (hc1 : Messages.createMessage kind ch dm a1 x1 n1 u1 t0 = .ok (m1, t1))
    (hc2 : Messages.createMessage kind ch dm a2 x2 n2 u2 t1 = .ok (m2, t2))
    (hc3 : Messages.createMessage kind ch dm a3 x3 n3 u3 t2 = .ok (m3, t3)) :
    Messages.fetchMessages kind key limit t3 = [m1, m2, m3] := by
  obtain ⟨hme1, ht1⟩ := createMessage_ok_inv hc1
  obtain ⟨hme2, ht2⟩ := createMessage_ok_inv hc2
  obtain ⟨hme3, ht3⟩ := createMessage_ok_inv hc3
  subst hme1 hme2 hme3 ht1 ht2 ht3
  have hpass : ∀ (a x n u : String),
      (itemPK (Messages.msgItem kind ch dm a x n u) == key &&
        jsStartsWith (itemSK (Messages.msgItem kind ch dm a x n u)) "MSG#") = true := by
    intro a x n u
    rw [itemPK_msgItem, itemSK_msgItem, hpk]
    simp [startsWith_msg]
  have hfil : (((t0 ++ [Messages.msgItem kind ch dm a1 x1 n1 u1]) ++
        [Messages.msgItem kind ch dm a2 x2 n2 u2]) ++
        [Messages.msgItem kind ch dm a3 x3 n3 u3]).filter
      (fun r => itemPK r == key && jsStartsWith (itemSK r) "MSG#") =
      [Messages.msgItem kind ch dm a1 x1 n1 u1,
       Messages.msgItem kind ch dm a2 x2 n2 u2,
       Messages.msgItem kind ch dm a3 x3 n3 u3] := by
    rw [List.filter_append, List.filter_append, List.filter_append, h0]
    simp [List.filter_cons, hpass a1 x1 n1 u1, hpass a2 x2 n2 u2, hpass a3 x3 n3 u3]
  have hsk12 : Messages.skLe (Messages.msgItem kind ch dm a1 x1 n1 u1)
      (Messages.msgItem kind ch dm a2 x2 n2 u2) := by
    unfold Messages.skLe
    rw [itemSK_msgItem, itemSK_msgItem]
    exact h12
  have hsk23 : Messages.skLe (Messages.msgItem kind ch dm a2 x2 n2 u2)
      (Messages.msgItem kind ch dm a3 x3 n3 u3) := by
    unfold Messages.skLe
    rw [itemSK_msgItem, itemSK_msgItem]
    exact h23
  have hsk13 : Messages.skLe (Messages.msgItem kind ch dm a1 x1 n1 u1)
      (Messages.msgItem kind ch dm a3 x3 n3 u3) := by
    unfold Messages.skLe
    rw [itemSK_msgItem, itemSK_msgItem]
    exact strLeB_trans h12 h23
  have hsorted : List.Sorted Messages.skLe
      [Messages.msgItem kind ch dm a1 x1 n1 u1,
       Messages.msgItem kind ch dm a2 x2 n2 u2,
       Messages.msgItem kind ch dm a3 x3 n3 u3] := by
    refine List.Pairwise.cons ?_ (List.Pairwise.cons ?_ (List.pairwise_singleton _ _))
    · intro b hb
      rcases List.mem_cons.mp hb with rfl | hb'
      · exact hsk12
      · rw [List.mem_singleton] at hb'
        subst hb'
        exact hsk13
    · intro b hb
      rw [List.mem_singleton] at hb
      subst hb
      exact hsk23
  have hquery : Messages.queryMsgA
      (((t0 ++ [Messages.msgItem kind ch dm a1 x1 n1 u1]) ++
        [Messages.msgItem kind ch dm a2 x2 n2 u2]) ++
        [Messages.msgItem kind ch dm a3 x3 n3 u3]) key limit =
      [Messages.msgItem kind ch dm a1 x1 n1 u1,
       Messages.msgItem kind ch dm a2 x2 n2 u2,
       Messages.msgItem kind ch dm a3 x3 n3 u3] := by
    unfold Messages.queryMsgA
    rw [hfil, hsorted.insertionSort_eq]
    exact List.take_of_length_le (by simpa using hlim)
  have hmsgs : ([Messages.msgItem kind ch dm a1 x1 n1 u1,
      Messages.msgItem kind ch dm a2 x2 n2 u2,
      Messages.msgItem kind ch dm a3 x3 n3 u3]).filterMap
        Messages.mapItemToMessage =
      [Messages.savedMessage kind ch dm a1 x1 n1 u1,
       Messages.savedMessage kind ch dm a2 x2 n2 u2,
       Messages.savedMessage kind ch dm a3 x3 n3 u3] := by
    simp [List.filterMap_cons, hm1, hm2, hm3]
  simp only [Messages.fetchMessages]
  rw [hquery, hmsgs]
  simp

/-- C4: within a thread (channel or DM), three messages sent in order are
listed back as m1, m2, m3 — in non-decreasing `createdAt` order with ties
broken by the unique sort-key suffix (the `strLeB`/`locLe` hypotheses are
exactly that ordering, the sort key being `"MSG#"+createdAt+"#"+suffix`)
— both on the current-convention query path (first two conjuncts, channel
and DM threads) and on the legacy scan-fallback path (third conjunct,
legacy rows carrying the same three payloads). -/
theorem c4_chronological_order :
    (∀ (c : String) (limit : Nat) (t0 : List Row)
       (a1 x1 n1 u1 a2 x2 n2 u2 a3 x3 n3 u3 : String)
       (m1 m2 m3 : Messages.ChatMessage) (t1 t2 t3 : List Row),
      c ≠ "" →
      isNonEmpty a1 = true → isNonEmpty x1 = true → isNonEmpty n1 = true →
      isNonEmpty a2 = true → isNonEmpty x2 = true → isNonEmpty n2 = true →
      isNonEmpty a3 = true → isNonEmpty x3 = true → isNonEmpty n3 = true →
      strLeB ("MSG#" ++ n1 ++ "#" ++ u1) ("MSG#" ++ n2 ++ "#" ++ u2) = true →
      strLeB ("MSG#" ++ n2 ++ "#" ++ u2) ("MSG#" ++ n3 ++ "#" ++ u3) = true →
      3 ≤ limit →
      t0.filter (fun r => itemPK r == ("CHANNEL#" ++ c) &&
        jsStartsWith (itemSK r) "MSG#") = [] →
      Messages.createMessage .channel (some c) none a1 x1 n1 u1 t0 = .ok (m1, t1) →
      Messages.createMessage .channel (some c) none a2 x2 n2 u2 t1 = .ok (m2, t2) →
      Messages.createMessage .channel (some c) none a3 x3 n3 u3 t2 = .ok (m3, t3) →
      Messages.fetchMessages .channel ("CHANNEL#" ++ c) limit t3 = [m1, m2, m3]) ∧
    (∀ (d : String) (limit : Nat) (t0 : List Row)
       (a1 x1 n1 u1 a2 x2 n2 u2 a3 x3 n3 u3 : String)
       (m1 m2 m3 : Messages.ChatMessage) (t1 t2 t3 : List Row),
      jsStartsWith d "DM#" = true → jsStartsWith d "CHANNEL#" = false → d ≠ "" →
      isNonEmpty a1 = true → isNonEmpty x1 = true → isNonEmpty n1 = true →
      isNonEmpty a2 = true → isNonEmpty x2 = true → isNonEmpty n2 = true →
      isNonEmpty a3 = true → isNonEmpty x3 = true → isNonEmpty n3 = true →
      strLeB ("MSG#" ++ n1 ++ "#" ++ u1) ("MSG#" ++ n2 ++ "#" ++ u2) = true →
      strLeB ("MSG#" ++ n2 ++ "#" ++ u2) ("MSG#" ++ n3 ++ "#" ++ u3) = true →
      3 ≤ limit →
      t0.filter (fun r => itemPK r == d && jsStartsWith (itemSK r) "MSG#") = [] →
      Messages.createMessage .dm none (some d) a1 x1 n1 u1 t0 = .ok (m1, t1) →
      Messages.createMessage .dm none (some d) a2 x2 n2 u2 t1 = .ok (m2, t2) →
      Messages.createMessage .dm none (some d) a3 x3 n3 u3 t2 = .ok (m3, t3) →
      Messages.fetchMessages .dm d limit t3 = [m1, m2, m3]) ∧
    (∀ (c : String) (limit : Nat) (t0 : List Row)
       (a1 x1 n1 a2 x2 n2 a3 x3 n3 : String),
      isNonEmpty a1 = true → isNonEmpty x1 = true → isNonEmpty n1 = true →
      isNonEmpty a2 = true → isNonEmpty x2 = true → isNonEmpty n2 = true →
      isNonEmpty a3 = true → isNonEmpty x3 = true → isNonEmpty n3 = true →
      locLe n1 n2 → locLe n2 n3 →
      3 ≤ limit →
      t0.filter (fun r => itemPK r == ("CHANNEL#" ++ c) &&
        jsStartsWith (itemSK r) "MSG#") = [] →
      (t0.map (projectRow Messages.msgProjection)).filter
        (fun obj => orStr (readStr obj "PK") (readStr obj "pk") ==
          "MSG#CHANNEL#" ++ c) = [] →
      Messages.fetchMessages .channel ("CHANNEL#" ++ c) limit
          (t0 ++
            [[("PK", AttrVal.str ("MSG#CHANNEL#" ++ c)), ("author", AttrVal.str a1),
              ("text", AttrVal.str x1), ("createdAt", AttrVal.str n1)],
             [("PK", AttrVal.str ("MSG#CHANNEL#" ++ c)), ("author", AttrVal.str a2),
              ("text", AttrVal.str x2), ("createdAt", AttrVal.str n2)],
             [("PK", AttrVal.str ("MSG#CHANNEL#" ++ c)), ("author", AttrVal.str a3),
              ("text", AttrVal.str x3), ("createdAt", AttrVal.str n3)]]) =
        [{ id := "", kind := .channel, channel := some c, dmId := none,
           author := a1, text := x1, createdAt := n1, sender := some a1,
           time := Messages.shortTime n1 },
         { id := "", kind := .channel, channel := some c, dmId := none,
           author := a2, text := x2, createdAt := n2, sender := some a2,
           time := Messages.shortTime n2 },
         { id := "", kind := .channel, channel := some c, dmId := none,
           author := a3, text := x3, createdAt := n3, sender := some a3,
           time := Messages.shortTime n3 }]) := by
  refine ⟨?_, ?_, ?_⟩
  · intro c limit t0 a1 x1 n1 u1 a2 x2 n2 u2 a3 x3 n3 u3 m1 m2 m3 t1 t2 t3
      hc ha1 hx1 hn1 ha2 hx2 hn2 ha3 hx3 hn3 h12 h23 hlim h0 hc1 hc2 hc3
    have hpk : Messages.buildPk .channel (some c) none = "CHANNEL#" ++ c := by
      simp [Messages.buildPk, hc]
    exact fetchMessages_three .channel (some c) none ("CHANNEL#" ++ c) limit t0
      a1 x1 n1 u1 a2 x2 n2 u2 a3 x3 n3 u3 m1 m2 m3 t1 t2 t3 hpk
      (mapItem_msgItem_channel c a1 x1 n1 u1 hc ha1 hx1 hn1)
      (mapItem_msgItem_channel c a2 x2 n2 u2 hc ha2 hx2 hn2)
      (mapItem_msgItem_channel c a3 x3 n3 u3 hc ha3 hx3 hn3)
      h12 h23 hlim h0 hc1 hc2 hc3
  · intro d limit t0 a1 x1 n1 u1 a2 x2 n2 u2 a3 x3 n3 u3 m1 m2 m3 t1 t2 t3
      hd1 hd2 hdne ha1 hx1 hn1 ha2 hx2 hn2 ha3 hx3 hn3 h12 h23 hlim h0 hc1 hc2 hc3
    have hpk : Messages.buildPk .dm none (some d) = d := by
      simp [Messages.buildPk, hdne]
    exact fetchMessages_three .dm none (some d) d limit t0
      a1 x1 n1 u1 a2 x2 n2 u2 a3 x3 n3 u3 m1 m2 m3 t1 t2 t3 hpk
      (mapItem_msgItem_dm d a1 x1 n1 u1 hd1 hd2 hdne ha1 hx1 hn1)
      (mapItem_msgItem_dm d a2 x2 n2 u2 hd1 hd2 hdne ha2 hx2 hn2)
      (mapItem_msgItem_dm d a3 x3 n3 u3 hd1 hd2 hdne ha3 hx3 hn3)
      h12 h23 hlim h0 hc1 hc2 hc3
  · intro c limit t0 a1 x1 n1 a2 x2 n2 a3 x3 n3
      ha1 hx1 hn1 ha2 hx2 hn2 ha3 hx3 hn3 hl12 hl23 hlim h0 h0scan
    have hlegSK : ∀ (a x n : String),
        itemSK [("PK", AttrVal.str ("MSG#CHANNEL#" ++ c)), ("author", AttrVal.str a),
          ("text", AttrVal.str x), ("createdAt", AttrVal.str n)] = "" := by
      intro a x n
      simp [itemSK, readStr, lookupAttr]
    have hlegfail : ∀ (a x n : String),
        (itemPK [("PK", AttrVal.str ("MSG#CHANNEL#" ++ c)), ("author", AttrVal.str a),
            ("text", AttrVal.str x), ("createdAt", AttrVal.str n)] ==
          ("CHANNEL#" ++ c) &&
         jsStartsWith (itemSK [("PK", AttrVal.str ("MSG#CHANNEL#" ++ c)),
            ("author", AttrVal.str a), ("text", AttrVal.str x),
            ("createdAt", AttrVal.str n)]) "MSG#") = false := by
      intro a x n
      have hsw : jsStartsWith "" "MSG#" = false := by decide
      rw [hlegSK]
      simp [hsw]
    have hqfil : (t0 ++
        [[("PK", AttrVal.str ("MSG#CHANNEL#" ++ c)), ("author", AttrVal.str a1),
          ("text", AttrVal.str x1), ("createdAt", AttrVal.str n1)],
         [("PK", AttrVal.str ("MSG#CHANNEL#" ++ c)), ("author", AttrVal.str a2),
          ("text", AttrVal.str x2), ("createdAt", AttrVal.str n2)],
         [("PK", AttrVal.str ("MSG#CHANNEL#" ++ c)), ("author", AttrVal.str a3),
          ("text", AttrVal.str x3), ("createdAt", AttrVal.str n3)]]).filter
        (fun r => itemPK r == ("CHANNEL#" ++ c) &&
          jsStartsWith (itemSK r) "MSG#") = [] := by
      rw [List.filter_append, h0]
      simp [List.filter_cons, hlegfail a1 x1 n1, hlegfail a2 x2 n2, hlegfail a3 x3 n3]
    have hq : (Messages.queryMsgA (t0 ++
        [[("PK", AttrVal.str ("MSG#CHANNEL#" ++ c)), ("author", AttrVal.str a1),
          ("text", AttrVal.str x1), ("createdAt", AttrVal.str n1)],
         [("PK", AttrVal.str ("MSG#CHANNEL#" ++ c)), ("author", AttrVal.str a2),
          ("text", AttrVal.str x2), ("createdAt", AttrVal.str n2)],
         [("PK", AttrVal.str ("MSG#CHANNEL#" ++ c)), ("author", AttrVal.str a3),
          ("text", AttrVal.str x3), ("createdAt", AttrVal.str n3)]])
        ("CHANNEL#" ++ c) limit).filterMap Messages.mapItemToMessage = [] := by
      unfold Messages.queryMsgA
      rw [hqfil]
      simp
    rw [fetchMessages_fallback_channel c limit _ hq]
    have hproj : ∀ (a x n : String),
        projectRow Messages.msgProjection
          [("PK", AttrVal.str ("MSG#CHANNEL#" ++ c)), ("author", AttrVal.str a),
           ("text", AttrVal.str x), ("createdAt", AttrVal.str n)] =
        [("PK", AttrVal.str ("MSG#CHANNEL#" ++ c)), ("author", AttrVal.str a),
         ("text", AttrVal.str x), ("createdAt", AttrVal.str n)] := by
      intro a x n
      simp [projectRow, Messages.msgProjection]
    have hpass : ∀ (a x n : String),
        (orStr (readStr [("PK", AttrVal.str ("MSG#CHANNEL#" ++ c)),
            ("author", AttrVal.str a), ("text", AttrVal.str x),
            ("createdAt", AttrVal.str n)] "PK")
          (readStr [("PK", AttrVal.str ("MSG#CHANNEL#" ++ c)),
            ("author", AttrVal.str a), ("text", AttrVal.str x),
            ("createdAt", AttrVal.str n)] "pk") == "MSG#CHANNEL#" ++ c) = true := by
      intro a x n
      have h1 : readStr [("PK", AttrVal.str ("MSG#CHANNEL#" ++ c)),
          ("author", AttrVal.str a), ("text", AttrVal.str x),
          ("createdAt", AttrVal.str n)] "PK" = "MSG#CHANNEL#" ++ c :=
        readStr_cons_hit _ _ _
      have h2 : readStr [("PK", AttrVal.str ("MSG#CHANNEL#" ++ c)),
          ("author", AttrVal.str a), ("text", AttrVal.str x),
          ("createdAt", AttrVal.str n)] "pk" = "" := by
        simp [readStr, lookupAttr]
      rw [h1, h2, orStr_empty_right]
      simp
    rw [List.map_append, List.filter_append, h0scan]
    simp only [List.map_cons, List.map_nil, hproj a1 x1 n1, hproj a2 x2 n2,
      hproj a3 x3 n3]
    rw [List.nil_append]
    simp only [List.filter_cons, hpass a1 x1 n1, hpass a2 x2 n2, hpass a3 x3 n3,
      if_pos, List.filter_nil]
    simp only [List.filterMap_cons,
      mapItem_legacy_channel c a1 x1 n1 ha1 hx1 hn1,
      mapItem_legacy_channel c a2 x2 n2 ha2 hx2 hn2,
      mapItem_legacy_channel c a3 x3 n3 ha3 hx3 hn3, List.filterMap_nil]
    have hs13 : locLe n1 n3 := localeCompareEn_le_trans hl12 hl23
    have hsorted : List.Sorted Messages.createdAtLe
        [{ id := "", kind := .channel, channel := some c, dmId := none,
           author := a1, text := x1, createdAt := n1, sender := some a1,
           time := Messages.shortTime n1 },
         { id := "", kind := .channel, channel := some c, dmId := none,
           author := a2, text := x2, createdAt := n2, sender := some a2,
           time := Messages.shortTime n2 },
         { id := "", kind := .channel, channel := some c, dmId := none,
           author := a3, text := x3, createdAt := n3, sender := some a3,
           time := Messages.shortTime n3 }] := by
      refine List.Pairwise.cons ?_ (List.Pairwise.cons ?_ (List.pairwise_singleton _ _))
      · intro b hb
        rcases List.mem_cons.mp hb with rfl | hb'
        · exact hl12
        · rw [List.mem_singleton] at hb'
          subst hb'
          exact hs13
      · intro b hb
        rw [List.mem_singleton] at hb
        subst hb
        exact hl23
    rw [hsorted.insertionSort_eq]
    exact List.take_of_length_le (by simpa using hlim)

/-- C4 witness: three concrete sequential sends into channel "general"
on an empty table are listed back in send order. -/
theorem c4_chronological_order_witness :
    Messages.fetchMessages .channel ("CHANNEL#" ++ "general") 50
        ((([] ++
          [Messages.msgItem .channel (some "general") none "ann" "one"
             "2025-01-01T10:00:00.000Z" "ua"]) ++
          [Messages.msgItem .channel (some "general") none "bob" "two"
             "2025-01-01T10:00:01.000Z" "ub"]) ++
          [Messages.msgItem .channel (some "general") none "cyd" "three"
             "2025-01-01T10:00:02.000Z" "uc"]) =
      [Messages.savedMessage .channel (some "general") none "ann" "one"
         "2025-01-01T10:00:00.000Z" "ua",
       Messages.savedMessage .channel (some "general") none "bob" "two"
         "2025-01-01T10:00:01.000Z" "ub",
       Messages.savedMessage .channel (some "general") none "cyd" "three"
         "2025-01-01T10:00:02.000Z" "uc"] :=
  c4_chronological_order.1 "general" 50 []
    "ann" "one" "2025-01-01T10:00:00.000Z" "ua"
    "bob" "two" "2025-01-01T10:00:01.000Z" "ub"
    "cyd" "three" "2025-01-01T10:00:02.000Z" "uc"
    _ _ _ _ _ _
    (by decide) (by decide) (by decide) (by decide) (by decide) (by decide)
    (by decide) (by decide) (by decide) (by decide) (by decide) (by decide)
    (by decide) rfl
    (createMessage_ok .channel (some "general") none "ann" "one"
      "2025-01-01T10:00:00.000Z" "ua" [] (by decide))
    (createMessage_ok .channel (some "general") none "bob" "two"
      "2025-01-01T10:00:01.000Z" "ub" _ (by decide))
    (createMessage_ok .channel (some "general") none "cyd" "three"
      "2025-01-01T10:00:02.000Z" "uc" _ (by decide))

/-- C1: when the current-convention (pattern A) query yields zero
messages, `fetchMessages` falls back to a table scan and returns only
messages coming from rows whose partition key equals the legacy key
`"MSG#CHANNEL#" ++ c`, sorted by `createdAt` ascending and truncated to
the limit; on the table holding only the legacy "general" row, the listing
returns exactly that one message. -/
theorem c1_legacy_fallback :
    (∀ (c : String) (limit : Nat) (t : List Row),
      (Messages.queryMsgA t ("CHANNEL#" ++ c) limit).filterMap
          Messages.mapItemToMessage = [] →
      (Messages.fetchMessages .channel ("CHANNEL#" ++ c) limit t).length ≤ limit ∧
      List.Sorted Messages.createdAtLe
        (Messages.fetchMessages .channel ("CHANNEL#" ++ c) limit t) ∧
      (∀ m ∈ Messages.fetchMessages .channel ("CHANNEL#" ++ c) limit t,
        ∃ row ∈ t,
          orStr (readStr (projectRow Messages.msgProjection row) "PK")
              (readStr (projectRow Messages.msgProjection row) "pk") =
            "MSG#CHANNEL#" ++ c ∧
          Messages.mapItemToMessage (projectRow Messages.msgProjection row) =
            some m)) ∧
    Messages.fetchMessages .channel "CHANNEL#general" 50
        [[("PK", AttrVal.str "MSG#CHANNEL#general"),
          ("SK", AttrVal.str "TS#2024-01-01T00:00:00.000Z#x"),
          ("author", AttrVal.str "alice"), ("text", AttrVal.str "hi")]] =
      [{ id := "TS#2024-01-01T00:00:00.000Z#x", kind := .channel,
         channel := some "general", dmId := none, author := "alice",
         text := "hi", createdAt := "2024-01-01T00:00:00.000Z",
         sender := some "alice", time := some "00:00" }] := by
  refine ⟨?_, by decide⟩
  intro c limit t hq
  rw [fetchMessages_fallback_channel c limit t hq]
  refine ⟨List.length_take_le _ _, ?_, ?_⟩
  · exact List.Pairwise.sublist (List.take_sublist _ _)
      (List.sorted_insertionSort _ _)
  · intro m hm
    have hm1 := List.mem_of_mem_take hm
    have hm2 := (List.perm_insertionSort Messages.createdAtLe _).mem_iff.mp hm1
    rcases List.mem_filterMap.mp hm2 with ⟨row', hrow', hmap⟩
    rcases List.mem_filter.mp hrow' with ⟨hrowmem, hpred⟩
    rcases List.mem_map.mp hrowmem with ⟨row, hrow, rfl⟩
    exact ⟨row, hrow, beq_iff_eq.mp hpred, hmap⟩

/-- C1 witness: the fallback bound applied on the single-legacy-row
table. -/
theorem c1_legacy_fallback_witness :
    (Messages.fetchMessages .channel ("CHANNEL#" ++ "general") 50
        [[("PK", AttrVal.str "MSG#CHANNEL#general"),
          ("SK", AttrVal.str "TS#2024-01-01T00:00:00.000Z#x"),
          ("author", AttrVal.str "alice"), ("text", AttrVal.str "hi")]]).length ≤ 50 :=
  (c1_legacy_fallback.1 "general" 50
    [[("PK", AttrVal.str "MSG#CHANNEL#general"),
      ("SK", AttrVal.str "TS#2024-01-01T00:00:00.000Z#x"),
      ("author", AttrVal.str "alice"), ("text", AttrVal.str "hi")]]
    (by decide)).1

/-- C7 witness: the OR-merge conjunct applied on the concrete "ops"
table. -/
theorem c7_lock_or_merge_witness :
    ("ops" : String) ≠ "" ∧
    (true : Bool) = anyLockedFor "ops" (Channels.channelRawItems
      [[("PK", AttrVal.str "CHANNEL"), ("SK", AttrVal.str "CHANNEL#ops"),
        ("isLocked", AttrVal.boolean false)],
       [("PK", AttrVal.str "CHANNEL#ops"), ("SK", AttrVal.str "META#INFO"),
        ("isLocked", AttrVal.boolean true)]]) :=
  c7_lock_or_merge.2.1
    [[("PK", AttrVal.str "CHANNEL"), ("SK", AttrVal.str "CHANNEL#ops"),
      ("isLocked", AttrVal.boolean false)],
     [("PK", AttrVal.str "CHANNEL#ops"), ("SK", AttrVal.str "META#INFO"),
      ("isLocked", AttrVal.boolean true)]]
    { name := "ops", isLocked := true } (by decide)

end Chappy
